import Mathlib

/-!
Verification of the Flow Path & Narrative Analysis Engine
(`src/path_parser.py` of the repository under review).

This file shallowly embeds the data model and the Step-Thread partitioning
pipeline of `parse_all_paths` (flat-text report) and `parse_all_paths_dict`
(structured dictionary), together with their JSON entry points, and settles
the frozen claims C1..C10 against that embedding.

Modelling conventions:

* Python strings are Lean `String`s; a "falsy" id or interface is the empty
  string, matching Python truthiness for `str`.
* Layout coordinates are modelled as `Option Int`: `some x` for a coordinate
  that `float(...)` parses, `none` for a missing/unparsable one (the source
  maps those to `float('inf')` wherever a comparison is needed, and all
  claim-relevant coordinate comparisons in the source are order comparisons,
  so integer representatives are faithful).
* Python's insertion-ordered `dict` and the source's set-typed collections
  (built by insertion, iterated once) are modelled as duplicate-free lists in
  insertion order.
* `sorted(..., key=...)` is modelled by a stable insertion sort `pySorted`.
-/

/-- Stable insertion of `a` after every element `b` with `le b a`. -/
def insertStable {α : Type} (le : α → α → Bool) (a : α) : List α → List α
  | [] => [a]
  | b :: bs => if le b a then b :: insertStable le a bs else a :: b :: bs

/-- Model of Python's stable `sorted(l, key=...)`: elements are inserted left
to right, each landing after all previously placed elements that do not
compare strictly greater. -/
def pySorted {α : Type} (le : α → α → Bool) (l : List α) : List α :=
  l.foldl (fun acc a => insertStable le a acc) []

/-- `str.startswith(pre)`, on the character lists (kernel-evaluable, unlike
`String.startsWith`). -/
def pyStartsWith (str pre : String) : Bool :=
  str.data.take pre.data.length = pre.data

/-- Python string `<=` (lexicographic by code point), on character lists. -/
def pyStrLeData : List Char → List Char → Bool
  | [], _ => true
  | _ :: _, [] => false
  | a :: as, b :: bs => if a < b then true else if b < a then false else pyStrLeData as bs

/-- Python string `<=` on `String`. -/
def pyStrLe (a b : String) : Bool := pyStrLeData a.data b.data

/-- An extended coordinate as the source uses it: a parsed float, or the
`float('inf')` / `-float('inf')` sentinels. -/
inductive XVal : Type
  | negInf : XVal
  | fin (x : Int) : XVal
  | posInf : XVal
deriving DecidableEq, Repr

/-- Order on extended coordinates (Python float comparison with infinities). -/
def XVal.ble : XVal → XVal → Bool
  | .negInf, _ => true
  | _, .posInf => true
  | .fin a, .fin b => a ≤ b
  | .fin _, .negInf => false
  | .posInf, .fin _ => false
  | .posInf, .negInf => false

/-- Strict order on extended coordinates. -/
def XVal.blt (a b : XVal) : Bool := ¬ XVal.ble b a

/-- `Option Int` coordinate to `XVal`, with `none` mapped to `+inf`
(the source's fallback for unparsable positions). -/
def XVal.ofOpt : Option Int → XVal
  | some x => .fin x
  | none => .posInf

/-- Node position: `x`/`y` layout coordinates, `none` when missing or
unparsable (a `float(...)` failure in the source). -/
structure Position where
  x : Option Int
  y : Option Int
deriving DecidableEq, Repr

/-- A diagram element of the flow schema (`FlowNode`). Empty strings model
`None`/missing string fields. -/
structure FlowNode where
  id : String
  label : String
  name : String
  type : String
  position : Position
  filled_story_template : String
deriving DecidableEq, Repr

/-- A directed edge of the flow schema (`Connection`). -/
structure Connection where
  id : String
  outputNode : String
  outputNodeInterface : String
  inputNode : String
  inputNodeInterface : String
deriving DecidableEq, Repr

/-- A flow schema value: nodes plus connections (the viewport is ignored by
the analysis functions). -/
structure FlowSchema where
  nodes : List FlowNode
  connections : List Connection
deriving DecidableEq, Repr

/-- One step of building a Python `dict` keyed by node id: a later node with
an already-present id overwrites the stored value but keeps the original
insertion position. -/
def pyDictInsertNode (l : List FlowNode) (n : FlowNode) : List FlowNode :=
  if l.any (fun m => m.id = n.id) then
    l.map (fun m => if m.id = n.id then n else m)
  else l ++ [n]

/-- `nodes_dict`: nodes without an id are dropped with a diagnostic; the rest
enter an insertion-ordered map keyed by id. -/
def nodes_dict (s : FlowSchema) : List FlowNode :=
  (s.nodes.filter (fun n => n.id ≠ "")).foldl pyDictInsertNode []

/-- The key set of `nodes_dict`, in insertion order. -/
def nodeIds (s : FlowSchema) : List String :=
  (nodes_dict s).map (fun n => n.id)

/-- `nodes_dict[nid]` as an `Option`. -/
def lookupNode (s : FlowSchema) (nid : String) : Option FlowNode :=
  (nodes_dict s).find? (fun n => n.id = nid)

/-- An entry of the `outgoing_connections` adjacency list:
`{'to_node': ..., 'from_interface': ..., 'to_interface': ..., 'connection_id': ...}`. -/
structure OutEdge where
  to_node : String
  from_interface : String
  to_interface : String
  connection_id : String
deriving DecidableEq, Repr

/-- An entry of the `incoming_connections` adjacency list:
`{'from_node': ..., 'to_interface': ..., 'from_interface': ..., 'connection_id': ...}`. -/
structure InEdge where
  from_node : String
  to_interface : String
  from_interface : String
  connection_id : String
deriving DecidableEq, Repr

/-- `outgoing_connections[nid]`: a connection is appended under its source
node when `output_node and input_node and output_interface and
output_node in nodes_dict` — the destination's presence in the node set and
the destination interface are not checked.  Ids not in `nodes_dict` have no
entry in the dict; `.get(nid, [])` yields `[]` for them. -/
def outgoing_connections (s : FlowSchema) (nid : String) : List OutEdge :=
  if (nodeIds s).contains nid then
    (s.connections.filter (fun c =>
      c.outputNode ≠ "" && c.inputNode ≠ "" && c.outputNodeInterface ≠ "" &&
      c.outputNode = nid)).map
      (fun c => ⟨c.inputNode, c.outputNodeInterface, c.inputNodeInterface, c.id⟩)
  else []

/-- `incoming_connections[nid]`: a connection is appended under its
destination node when `input_node and output_node and input_interface and
input_node in nodes_dict` — the source's presence in the node set and the
source interface are not checked. -/
def incoming_connections (s : FlowSchema) (nid : String) : List InEdge :=
  if (nodeIds s).contains nid then
    (s.connections.filter (fun c =>
      c.inputNode ≠ "" && c.outputNode ≠ "" && c.inputNodeInterface ≠ "" &&
      c.inputNode = nid)).map
      (fun c => ⟨c.outputNode, c.inputNodeInterface, c.outputNodeInterface, c.id⟩)
  else []

/-- `branch_points`: nodes with more than one outgoing connection whose type
is not `"Section"`, in `nodes_dict` iteration order. -/
def branch_points (s : FlowSchema) : List String :=
  ((nodes_dict s).filter (fun n =>
    (outgoing_connections s n.id).length > 1 && n.type ≠ "Section")).map (fun n => n.id)

/-- `merge_points`: nodes with more than one incoming connection whose type
is not `"Section"`. -/
def merge_points (s : FlowSchema) : List String :=
  ((nodes_dict s).filter (fun n =>
    (incoming_connections s n.id).length > 1 && n.type ≠ "Section")).map (fun n => n.id)

/-- `section_nodes`: nodes of type `"Section"`, regardless of connections. -/
def section_nodes (s : FlowSchema) : List String :=
  ((nodes_dict s).filter (fun n => n.type = "Section")).map (fun n => n.id)

/-- Ordered set union modelling `merge_points.union(branch_points)`:
merge points first, then branch points not already present. -/
def junction_nodes (s : FlowSchema) : List String :=
  merge_points s ++ (branch_points s).filter (fun b => ¬ (merge_points s).contains b)

/-- `root_nodes`: a node is a root if it has no incoming connections, or if
all its incoming connections originate from Section nodes and it is not a
Section itself. -/
def root_nodes (s : FlowSchema) : List String :=
  ((nodes_dict s).filter (fun n =>
    let incoming := incoming_connections s n.id
    incoming.isEmpty ||
      (incoming.all (fun conn => (section_nodes s).contains conn.from_node) &&
       ¬ (section_nodes s).contains n.id))).map (fun n => n.id)

/-- Ordered set insertion (Python `set.add` observed in insertion order). -/
def insertStr (l : List String) (a : String) : List String :=
  if l.contains a then l else l ++ [a]

/-- `linear_starts`: root nodes that are neither junctions nor sections, then
every target of an edge leaving a junction or a Section that exists in
`nodes_dict` and is itself neither junction nor section. -/
def linear_starts (s : FlowSchema) : List String :=
  let roots := (root_nodes s).filter (fun r =>
    ¬ (junction_nodes s).contains r && ¬ (section_nodes s).contains r)
  let init := roots.foldl insertStr []
  (junction_nodes s ++ section_nodes s).foldl (fun acc src =>
    (outgoing_connections s src).foldl (fun acc2 conn =>
      if conn.to_node ≠ "" && (nodeIds s).contains conn.to_node &&
         ¬ (junction_nodes s).contains conn.to_node &&
         ¬ (section_nodes s).contains conn.to_node
      then insertStr acc2 conn.to_node else acc2) acc) init

/-- `nodes_by_pos_x` as built by `parse_all_paths`: only nodes whose x
coordinate parses are appended, then the list is sorted by x. -/
def nodes_by_pos_x_text (s : FlowSchema) : List (String × Int) :=
  pySorted (fun a b => a.2 ≤ b.2)
    ((s.nodes.filter (fun n => n.id ≠ "")).filterMap
      (fun n => n.position.x.map (fun x => (n.id, x))))

/-- `nodes_by_pos_x` as built by `parse_all_paths_dict`: nodes with an
unparsable x are appended with `float('inf')` instead of being skipped. -/
def nodes_by_pos_x_dict (s : FlowSchema) : List (String × XVal) :=
  pySorted (fun a b => XVal.ble a.2 b.2)
    ((s.nodes.filter (fun n => n.id ≠ "")).map
      (fun n => (n.id, XVal.ofOpt n.position.x)))

/-- The sort key for linear starts in `parse_all_paths`:
`next((pos for nodeid, pos in nodes_by_pos_x if nodeid == nid), float('inf'))`. -/
def pos_key_text (s : FlowSchema) (nid : String) : XVal :=
  match (nodes_by_pos_x_text s).find? (fun p => p.1 = nid) with
  | some p => .fin p.2
  | none => .posInf

/-- The same sort key in `parse_all_paths_dict`. -/
def pos_key_dict (s : FlowSchema) (nid : String) : XVal :=
  match (nodes_by_pos_x_dict s).find? (fun p => p.1 = nid) with
  | some p => p.2
  | none => .posInf

/-- `ordered_linear_starts` of `parse_all_paths`. -/
def ordered_linear_starts_text (s : FlowSchema) : List String :=
  pySorted (fun a b => XVal.ble (pos_key_text s a) (pos_key_text s b)) (linear_starts s)

/-- `ordered_linear_starts` of `parse_all_paths_dict`. -/
def ordered_linear_starts_dict (s : FlowSchema) : List String :=
  pySorted (fun a b => XVal.ble (pos_key_dict s a) (pos_key_dict s b)) (linear_starts s)

/-- One recorded step of a linear trace (`current_connection_info` entries). -/
structure ConnInfo where
  from_node : String
  to_node : String
  from_interface : String
  to_interface : String
deriving DecidableEq, Repr

/-- Result of the `while not path_ended` loop of step 4c: the accumulated
path and connection info, the termination type, the `ends_at_junction` and
`via_interface` fields, and the updated global processed set. -/
structure TraceResult where
  path : List String
  connection_info : List ConnInfo
  end_type : String
  ends_at_junction : Option String
  via_interface : Option String
  processed : List String
deriving DecidableEq, Repr

/-- The linear-trace loop of step 4c (identical in `parse_all_paths`, lines
369-440, and `parse_all_paths_dict`, lines 1003-1029).  `fuel` bounds the
iteration count; `"fuel_exhausted"` marks the bound being hit (shown
unreachable for `fuel ≥ traceFuel`), and `"overlap_unstored"` marks the
loop-top overlap exit that stores no path. -/
def traceLoop (s : FlowSchema) (fuel : Nat) (processed visited path : List String)
    (connInfo : List ConnInfo) (current : String) : TraceResult :=
  match fuel with
  | 0 => ⟨path, connInfo, "fuel_exhausted", none, none, processed⟩
  | fuel + 1 =>
    if processed.contains current || visited.contains current then
      ⟨path, connInfo, "overlap_unstored", none, none, processed⟩
    else
      let path2 := path ++ [current]
      let processed2 := processed ++ [current]
      let visited2 := visited ++ [current]
      let outgoing := outgoing_connections s current
      let num_outgoing := outgoing.length
      let is_current_section := (section_nodes s).contains current
      let next_conn : Option OutEdge :=
        match outgoing with
        | [] => none
        | c :: _ => if num_outgoing > 1 && ¬ is_current_section then none else some c
      if num_outgoing = 0 then
        ⟨path2, connInfo, "linear_endpoint", none, none, processed2⟩
      else if num_outgoing > 1 && ¬ is_current_section then
        ⟨path2, connInfo, "linear_to_branch", some current, none, processed2⟩
      else
        match next_conn with
        | none => ⟨path2, connInfo, "linear_error", none, none, processed2⟩
        | some nc =>
          let next_node := nc.to_node
          if (junction_nodes s).contains next_node then
            ⟨path2, connInfo, "linear_to_junction", some next_node,
              some nc.from_interface, processed2⟩
          else if visited2.contains next_node then
            ⟨path2, connInfo, "linear_cycle", none, none, processed2⟩
          else if processed2.contains next_node then
            ⟨path2, connInfo, "linear_reaches_processed", some next_node, none, processed2⟩
          else
            traceLoop s fuel processed2 visited2 path2
              (connInfo ++ [⟨current, next_node, nc.from_interface, nc.to_interface⟩])
              next_node

/-- Enough fuel for any trace: a trace visits each node of `nodes_dict` at
most once plus at most one trailing ghost id. -/
def traceFuel (s : FlowSchema) : Nat := s.nodes.length + 2

/-- A path segment (`path_info` dictionary): node list, recorded connection
info, termination/junction type, assigned id, temporary id, and the link
fields. -/
structure PathInfo where
  path : List String
  connection_info : List ConnInfo
  ptype : String
  pid : Nat
  temp_id : Nat
  ends_at_junction : Option String
  via_interface : Option String
deriving DecidableEq, Repr

/-- The junction tag of step 4a. -/
def junctionTag (s : FlowSchema) (j : String) : String :=
  if (merge_points s).contains j && (branch_points s).contains j then "merge_and_branch_node"
  else if (merge_points s).contains j then "merge_node"
  else if (branch_points s).contains j then "branch_node"
  else "unknown_junction"

/-- The junction nodes that get singleton threads in step 4a (all junctions:
a Section is never classified as a junction); they are exactly the processed
set before linear tracing begins. -/
def processedAfterJunctions (s : FlowSchema) : List String :=
  (junction_nodes s).filter (fun j => ¬ (section_nodes s).contains j)

/-- Step 4a: one singleton path per non-Section junction node, with temp ids
1, 2, .... -/
def initial_junction_paths (s : FlowSchema) : List PathInfo :=
  (processedAfterJunctions s).enum.map
    (fun p => ⟨[p.2], [], junctionTag s p.2, p.1 + 1, p.1 + 1, none, none⟩)

/-- Step 4c: trace linear paths from each candidate start in order, skipping
starts already processed, storing each stored segment with the next counter
value.  Sentinel end types (never reached from here) store nothing. -/
def trace_linear (s : FlowSchema) :
    List String → List String → Nat → List PathInfo × List String
  | [], processed, _counter => ([], processed)
  | start :: rest, processed, counter =>
    if processed.contains start then trace_linear s rest processed counter
    else
      let r := traceLoop s (traceFuel s) processed [] [] [] start
      if pyStartsWith r.end_type "linear" then
        let info : PathInfo :=
          ⟨r.path, r.connection_info, r.end_type, counter, counter,
            r.ends_at_junction, r.via_interface⟩
        let rest2 := trace_linear s rest r.processed (counter + 1)
        (info :: rest2.1, rest2.2)
      else
        trace_linear s rest r.processed counter

/-- The `finished_linear_paths` list for a given start order. -/
def finished_linear_paths (s : FlowSchema) (starts : List String) : List PathInfo :=
  (trace_linear s starts (processedAfterJunctions s)
    ((processedAfterJunctions s).length + 1)).1

/-- `complete_paths` before sorting: junction singletons then linear paths. -/
def complete_paths_with (s : FlowSchema) (starts : List String) : List PathInfo :=
  initial_junction_paths s ++ finished_linear_paths s starts

/-- `get_sort_key`: the `(x, y)` of the path's first node, with `float('inf')`
for a missing path, node, or coordinate; when x fails to parse, y is never
attempted (the `try` block aborts), so the key is `(inf, inf)` even if y
parses. -/
def get_sort_key (s : FlowSchema) (p : PathInfo) : XVal × XVal :=
  match p.path with
  | [] => (.posInf, .posInf)
  | first :: _ =>
    match lookupNode s first with
    | none => (.posInf, .posInf)
    | some n =>
      match n.position.x with
      | none => (.posInf, .posInf)
      | some x =>
        match n.position.y with
        | none => (.fin x, .posInf)
        | some y => (.fin x, .fin y)

/-- Python tuple comparison on sort keys. -/
def sortKeyLE (a b : XVal × XVal) : Bool :=
  XVal.blt a.1 b.1 || (a.1 = b.1 && XVal.ble a.2 b.2)

/-- Step 5: `complete_paths` sorted by the `(x, y)` key. -/
def sorted_complete_paths_with (s : FlowSchema) (starts : List String) : List PathInfo :=
  pySorted (fun p q => sortKeyLE (get_sort_key s p) (get_sort_key s q))
    (complete_paths_with s starts)

/-- Step 5: dense sequential final ids 1..N assigned in sorted order. -/
def final_paths_with (s : FlowSchema) (starts : List String) : List PathInfo :=
  (sorted_complete_paths_with s starts).enum.map
    (fun p => { p.2 with pid := p.1 + 1 })

/-- `final_path_id_map`: temporary id to final id. -/
def final_path_id_map (s : FlowSchema) (starts : List String) (tid : Nat) : Option Nat :=
  ((final_paths_with s starts).find? (fun p => p.temp_id = tid)).map (fun p => p.pid)

/-- `linear_path_node_map`: first node of a linear path to that path (a dict
write per path; a later path with the same first node would overwrite, hence
the reversed search). -/
def linear_path_node_map (s : FlowSchema) (starts : List String) (nid : String) :
    Option PathInfo :=
  ((final_paths_with s starts).reverse).find? (fun p =>
    pyStartsWith p.ptype "linear" && ¬ p.path.isEmpty && p.path.headD "" = nid)

/-- Whether a path's type is one of the three junction tags. -/
def isJunctionType (t : String) : Bool :=
  t = "merge_node" || t = "branch_node" || t = "merge_and_branch_node"

/-- `junction_path_final_map`: junction node to its final singleton path. -/
def junction_path_final_map (s : FlowSchema) (starts : List String) (nid : String) :
    Option PathInfo :=
  ((final_paths_with s starts).reverse).find? (fun p =>
    isJunctionType p.ptype && ¬ p.path.isEmpty && p.path.headD "" = nid)

/-- `nodes_in_paths`: every final path id whose node list contains `nid`,
with multiplicity, in sorted-path order. -/
def nodes_in_paths (s : FlowSchema) (starts : List String) (nid : String) : List Nat :=
  (final_paths_with s starts).foldl
    (fun acc p => acc ++ List.replicate (p.path.count nid) p.pid) []

/-- Python `x or "output"` on the optional interface: `None` and the empty
string both fall back. -/
def orOutput (o : Option String) : String :=
  match o with
  | some v => if v = "" then "output" else v
  | none => "output"

/-- One `to_paths` entry of `path_connections`. -/
structure LinkEntry where
  path_id : Nat
  via_interface : String
deriving DecidableEq, Repr

/-- Step 6a (identical in both functions): each linear path of type
`linear_to_junction` or `linear_to_branch` links to the junction path owning
its `ends_at_junction` node.  (The text function also stores a constant
`"via": "to_junction"` tag, not modelled.)  Entries are keyed by the linear
path's final id. -/
def links_6a (s : FlowSchema) (starts : List String) : List (Nat × LinkEntry) :=
  (finished_linear_paths s starts).foldl (fun acc lp =>
    match final_path_id_map s starts lp.temp_id with
    | none => acc
    | some current_pid =>
      if lp.ptype = "linear_to_junction" || lp.ptype = "linear_to_branch" then
        match lp.ends_at_junction with
        | none => acc
        | some nj =>
          match junction_path_final_map s starts nj with
          | some jp => acc ++ [(current_pid, ⟨jp.pid, orOutput lp.via_interface⟩)]
          | none => acc
      else acc) []

/-- Step 6b of `parse_all_paths_dict` (lines 1072-1085): each junction path
links along each outgoing edge of its node to the junction or linear path
owning the target node; other targets are skipped. -/
def links_6b_dict (s : FlowSchema) (starts : List String) : List (Nat × LinkEntry) :=
  ((final_paths_with s starts).filter (fun p =>
      isJunctionType p.ptype && ¬ p.path.isEmpty)).foldl
    (fun acc jp =>
      let jnode := jp.path.headD ""
      (outgoing_connections s jnode).foldl (fun acc2 conn =>
        let target : Option Nat :=
          match junction_path_final_map s starts conn.to_node with
          | some q => some q.pid
          | none =>
            match linear_path_node_map s starts conn.to_node with
            | some q => some q.pid
            | none => none
        match target with
        | some t => acc2 ++ [(jp.pid, ⟨t, conn.from_interface⟩)]
        | none => acc2) acc) []

/-- CPython `==` between a `str` and an `int` is always `False` (no coercion),
so a node-id string is never `in` a dict keyed by integer thread ids. -/
def pyStrIntEq (_s : String) (_n : Nat) : Bool := false

/-- The body of step 6b of `parse_all_paths` (lines 511-546), which reads
`path_connections[junction_node_id]["to_paths"][0]["path_id"]` and tests
`next_node_id in path_connections`: both are `str` lookups in a dict keyed by
the `int` final ids added in step 6a, modelled with `pyStrIntEq` (and a
default for the guarded read).  It only runs under the always-false guard in
`links_6b_text`. -/
def links_6b_text_body (s : FlowSchema) (starts : List String) (jnode : String)
    (keys : List Nat) : List (Nat × LinkEntry) :=
  let current_path_id : Nat := 0
  (outgoing_connections s jnode).foldl (fun acc2 conn =>
    if keys.any (fun k => pyStrIntEq conn.to_node k) then
      acc2 ++ [(current_path_id, ⟨0, conn.from_interface⟩)]
    else
      match linear_path_node_map s starts conn.to_node with
      | some q => acc2 ++ [(current_path_id, ⟨q.pid, conn.from_interface⟩)]
      | none => acc2) []

/-- Step 6b of `parse_all_paths` (lines 511-546): for each junction node the
source first tests `junction_node_id not in path_connections` and skips when
absent; `path_connections` is keyed by the integer final path ids of step 6a
while `junction_node_id` is a node-id string, so the test never passes and no
junction links are ever recorded in the text report. -/
def links_6b_text (s : FlowSchema) (starts : List String) : List (Nat × LinkEntry) :=
  ((final_paths_with s starts).filter (fun p =>
      isJunctionType p.ptype && ¬ p.path.isEmpty)).foldl
    (fun acc jp =>
      let jnode := jp.path.headD ""
      let keys := (links_6a s starts).map (fun e => e.1) ++ acc.map (fun e => e.1)
      if keys.any (fun k => pyStrIntEq jnode k) then
        acc ++ links_6b_text_body s starts jnode keys
      else acc) []

/-- `path_connections[pid]["to_paths"]` as computed by `parse_all_paths`. -/
def path_connections_text (s : FlowSchema) (starts : List String) (pid : Nat) :
    List LinkEntry :=
  ((links_6a s starts ++ links_6b_text s starts).filter (fun e => e.1 = pid)).map
    (fun e => e.2)

/-- `path_connections[pid]["to_paths"]` as computed by `parse_all_paths_dict`. -/
def path_connections_dict (s : FlowSchema) (starts : List String) (pid : Nat) :
    List LinkEntry :=
  ((links_6a s starts ++ links_6b_dict s starts).filter (fun e => e.1 = pid)).map
    (fun e => e.2)

/-- The final Step Threads of `parse_all_paths`. -/
def final_paths_text (s : FlowSchema) : List PathInfo :=
  final_paths_with s (ordered_linear_starts_text s)

/-- The final Step Threads of `parse_all_paths_dict`. -/
def final_paths_dict (s : FlowSchema) : List PathInfo :=
  final_paths_with s (ordered_linear_starts_dict s)

/-- Python `str.strip` whitespace test (ASCII whitespace). -/
def pyIsSpace (c : Char) : Bool :=
  c = ' ' || c = '\t' || c = '\n' || c = '\r' || c = '\x0b' || c = '\x0c'

/-- Python `str.strip()`. -/
def pyStrip (str : String) : String :=
  ((str.data.dropWhile pyIsSpace).reverse.dropWhile pyIsSpace).reverse.asString

/-- `endswith(('.', '?', '!'))`. -/
def endsWithPunct (str : String) : Bool :=
  match str.data.getLast? with
  | some c => c = '.' || c = '?' || c = '!'
  | none => false

/-- `s[0].upper() + s[1:]`. -/
def capitalizeFirst (str : String) : String :=
  match str.data with
  | [] => str
  | c :: cs => (c.toUpper :: cs).asString

/-- The step/description formatter shared by both renderers: strip, add a
final period when no terminal punctuation, capitalize the first character
(falling back to the raw template when the stripped text is empty). -/
def formatDescription (template : String) : String :=
  let formatted := pyStrip template
  let formatted :=
    if formatted ≠ "" && ¬ endsWithPunct formatted then formatted ++ "." else formatted
  if formatted ≠ "" then capitalizeFirst formatted else template

/-- `node_data.filled_story_template or f"Node {node_data.name} ({node_id})"`. -/
def stepTemplate (n : FlowNode) (node_id : String) : String :=
  if n.filled_story_template ≠ "" then n.filled_story_template
  else "Node " ++ n.name ++ " (" ++ node_id ++ ")"

/-- A placeholder for `nodes_dict[node_id]` on an id outside `nodes_dict`
(a ghost target of a dangling connection); in the source this lookup would
raise `KeyError` inside the renderer — no claim input exercises it. -/
def ghostNode (nid : String) : FlowNode := ⟨nid, "", "", "", ⟨none, none⟩, ""⟩

/-- One entry of a step's `inputs` list in the structured output. -/
structure InputDetail where
  from_node_label : String
  from_node_id : String
  from_interface : String
  to_interface : String
  source_step_threads : List Nat
deriving DecidableEq, Repr

/-- `get_input_details` (lines 1090-1111): incoming connections with a truthy
source id and both interfaces, not originating from a Section, with the
source node's label (or `"Unknown"`) and the sorted list of other threads
containing the source node. -/
def get_input_details (s : FlowSchema) (starts : List String) (node_id : String)
    (current_step_thread_id : Nat) : List InputDetail :=
  (incoming_connections s node_id).foldl (fun acc conn =>
    if conn.from_node ≠ "" && conn.to_interface ≠ "" && conn.from_interface ≠ "" &&
       ¬ (section_nodes s).contains conn.from_node then
      let from_node_label :=
        match lookupNode s conn.from_node with
        | some n => n.label
        | none => "Unknown"
      let relevant := pySorted (fun a b => a ≤ b)
        ((nodes_in_paths s starts conn.from_node).filter
          (fun p => p ≠ current_step_thread_id))
      acc ++ [⟨from_node_label, conn.from_node, conn.from_interface,
              conn.to_interface, relevant⟩]
    else acc) []

/-- One step of a thread in the structured output. -/
structure StepDict where
  step_number : Nat
  node_label : String
  node_id : String
  description : String
  inputs : List InputDetail
deriving DecidableEq, Repr

/-- One thread of the structured output. -/
structure ThreadDict where
  id : Nat
  steps : List StepDict
  continues_in : List LinkEntry
deriving DecidableEq, Repr

/-- The steps of a thread in the structured output: skip a leading Section
node, skip inner Section nodes, number the remaining nodes 1..; `node_label`
is `label or name`. -/
def thread_steps (s : FlowSchema) (starts : List String) (p : PathInfo) : List StepDict :=
  let start_index := if (section_nodes s).contains (p.path.headD "") then 1 else 0
  ((p.path.drop start_index).filter
    (fun nid => ¬ (section_nodes s).contains nid)).enum.map (fun pr =>
      let node_id := pr.2
      let n := (lookupNode s node_id).getD (ghostNode node_id)
      { step_number := pr.1 + 1
        node_label := if n.label ≠ "" then n.label else n.name
        node_id := node_id
        description := formatDescription (stepTemplate n node_id)
        inputs := get_input_details s starts node_id p.pid })

/-- A thread dictionary: id, steps, and the `continues_in` list sorted by
target path id. -/
def thread_dict_of (s : FlowSchema) (starts : List String) (p : PathInfo) : ThreadDict :=
  { id := p.pid
    steps := thread_steps s starts p
    continues_in := pySorted (fun a b => a.path_id ≤ b.path_id)
      (path_connections_dict s starts p.pid) }

/-- `section_label_map[sid]`. -/
def section_label (s : FlowSchema) (sid : String) : Option String :=
  if (section_nodes s).contains sid then (lookupNode s sid).map (fun n => n.label)
  else none

/-- `section_pos_map[sid]` in `parse_all_paths_dict` (and in the grouping of
`parse_all_paths`): the whole tuple falls back to `(inf, inf)` if either
coordinate fails to parse, and `.get` defaults to `(inf, inf)`. -/
def section_pos (s : FlowSchema) (sid : String) : XVal × XVal :=
  match lookupNode s sid with
  | none => (.posInf, .posInf)
  | some n =>
    match n.position.x, n.position.y with
    | some x, some y => (.fin x, .fin y)
    | _, _ => (.posInf, .posInf)

/-- `sorted_section_ids`: Section ids sorted by `(x, y)`. -/
def sorted_section_ids (s : FlowSchema) : List String :=
  pySorted (fun a b => sortKeyLE (section_pos s a) (section_pos s b)) (section_nodes s)

/-- `section_order`: the labels of the sorted Section ids (duplicates kept). -/
def section_order (s : FlowSchema) : List String :=
  (sorted_section_ids s).filterMap (fun sid => section_label s sid)

/-- The section-assignment scan shared by both groupings: walk the sections in
ascending x, remembering the rightmost section whose x is not to the right of
the thread's first node (ties resolved toward later sections), breaking early
on an exact node match or on the first section strictly to the right. -/
def assign_section_loop (s : FlowSchema) (first_node_id : String) (first_x : XVal) :
    List String → Option String → XVal → Option String
  | [], assigned, _ => assigned
  | sec :: rest, assigned, last_x =>
    let sec_x := (section_pos s sec).1
    if XVal.ble sec_x first_x && XVal.ble last_x sec_x then
      if first_node_id = sec then some sec
      else assign_section_loop s first_node_id first_x rest (some sec) sec_x
    else if XVal.blt first_x sec_x then assigned
    else assign_section_loop s first_node_id first_x rest assigned last_x

/-- `assigned_section_id` for a thread whose first node sits at `first_x`. -/
def assign_section (s : FlowSchema) (first_node_id : String) (first_x : XVal) :
    Option String :=
  assign_section_loop s first_node_id first_x (sorted_section_ids s) none .negInf

/-- The grouping loop of `parse_all_paths_dict` step 7b: for each final path
(in sorted order) build its thread dictionary and pair it with the Section it
is assigned to (`none` for standalone), skipping empty, Section-only and
step-less paths; a thread whose first node has position `inf` is never
assigned. -/
def grouped_threads_dict (s : FlowSchema) (starts : List String) :
    List (Option String × ThreadDict) :=
  (final_paths_with s starts).foldl (fun acc p =>
    match p.path with
    | [] => acc
    | first :: _ =>
      if (section_nodes s).contains first && p.path.length = 1 then acc
      else
        let td := thread_dict_of s starts p
        if td.steps.isEmpty then acc
        else
          let first_x := (get_sort_key s p).1
          let assigned : Option String :=
            if first_x = .posInf then none else assign_section s first first_x
          match assigned with
          | some sid =>
            if sid ≠ "" && (section_label s sid).isSome then acc ++ [(some sid, td)]
            else acc ++ [(none, td)]
          | none => acc ++ [(none, td)]) []

/-- `section_threads_map[label]` in the structured output. -/
def section_threads_for_label (s : FlowSchema) (starts : List String) (label : String) :
    List ThreadDict :=
  (grouped_threads_dict s starts).foldl (fun acc pr =>
    match pr.1 with
    | some sid => if section_label s sid = some label then acc ++ [pr.2] else acc
    | none => acc) []

/-- `standalone_threads` in the structured output. -/
def standalone_threads_dict (s : FlowSchema) (starts : List String) : List ThreadDict :=
  (grouped_threads_dict s starts).foldl (fun acc pr =>
    match pr.1 with
    | some _ => acc
    | none => acc ++ [pr.2]) []

/-- One entry of `sections` in the structured output. -/
structure SectionOut where
  label : String
  template_content : Option String
  threads : List ThreadDict
deriving DecidableEq, Repr

/-- Step 7c: one output entry per label (in sorted-section order) that owns at
least one thread, with the stripped story template of the first Section node
carrying that label. -/
def output_sections (s : FlowSchema) (starts : List String) : List SectionOut :=
  (section_order s).foldl (fun acc label =>
    let threads := section_threads_for_label s starts label
    if threads.isEmpty then acc
    else
      let section_node_id := (section_nodes s).find? (fun sid =>
        section_label s sid = some label)
      let template_content : Option String :=
        match section_node_id with
        | some sid =>
          match lookupNode s sid with
          | some n =>
            if n.filled_story_template ≠ "" then some (pyStrip n.filled_story_template)
            else none
          | none => none
        | none => none
      acc ++ [⟨label, template_content, threads⟩]) []

/-- One entry of `summary.sections_found`. -/
structure SectionSummary where
  label : String
  node_id : String
  template_content : Option String
  thread_count : Nat
deriving DecidableEq, Repr

/-- `summary.sections_found`: one record per Section node, sorted by
`(y, x)` position.  Totalized model: the source sorts `(y, x, info_dict)`
tuples, so two distinct Sections tying on `(y, x)` make it compare the
dicts and raise `TypeError`; here the stable sort simply keeps such ties in
insertion order, so this definition is faithful only to schemas whose
Sections have pairwise distinct `(y, x)` keys (every claim input used below
has at most one Section). -/
def summary_sections_found (s : FlowSchema) (starts : List String) : List SectionSummary :=
  let infos := (section_nodes s).filterMap (fun sid =>
    match lookupNode s sid with
    | none => none
    | some n =>
      let pos := section_pos s sid
      let template_content : Option String :=
        if n.filled_story_template ≠ "" then some (pyStrip n.filled_story_template)
        else none
      some (pos.2, pos.1,
        (⟨n.label, sid, template_content,
          (section_threads_for_label s starts n.label).length⟩ : SectionSummary)))
  (pySorted (fun a b => sortKeyLE (a.1, a.2.1) (b.1, b.2.1)) infos).map
    (fun t => t.2.2)

/-- The structured output value of `parse_all_paths_dict` on a non-empty
schema. -/
structure FinalDict where
  sections : List SectionOut
  standalone_threads : List ThreadDict
  total_threads : Nat
  sections_found : List SectionSummary
deriving DecidableEq, Repr

/-- Result of `parse_all_paths_dict`: either the `{"error": ...}` dictionary
or the structured output. -/
inductive DictResult : Type
  | err (msg : String) : DictResult
  | ok (d : FinalDict) : DictResult
deriving DecidableEq, Repr

/-- `parse_all_paths_dict`: the empty-schema error value, or the assembled
structured output (threads grouped by Section, standalone threads, and the
summary; `total_threads` subtracts Section-only singleton paths). -/
def parse_all_paths_dict (s : FlowSchema) : DictResult :=
  if s.nodes.isEmpty then .err "No nodes found in the flow schema."
  else
    let starts := ordered_linear_starts_dict s
    let paths := final_paths_with s starts
    .ok
      { sections := output_sections s starts
        standalone_threads := standalone_threads_dict s starts
        total_threads := paths.length -
          (paths.filter (fun p =>
            p.path.length = 1 && (section_nodes s).contains (p.path.headD ""))).length
        sections_found := summary_sections_found s starts }

/-- `format_input_info` (lines 553-583), detail list: one quoted description
per incoming connection with truthy source id and both interfaces whose
source is not a Section, mentioning the other threads containing the source. -/
def format_input_details (s : FlowSchema) (starts : List String) (node_id : String)
    (current_step_thread_id : Nat) : List String :=
  (incoming_connections s node_id).foldl (fun acc conn =>
    if conn.from_node ≠ "" && conn.to_interface ≠ "" && conn.from_interface ≠ "" then
      if (section_nodes s).contains conn.from_node then acc
      else
        let from_node_label :=
          match lookupNode s conn.from_node with
          | some n => n.label
          | none => "Unknown"
        let relevant := (nodes_in_paths s starts conn.from_node).filter
          (fun p => p ≠ current_step_thread_id)
        let path_indicator :=
          if relevant.isEmpty then ""
          else " (from " ++ String.intercalate ", "
            ((pySorted (fun a b => a ≤ b) relevant).map
              (fun p => "Step Thread " ++ toString p)) ++ ")"
        acc ++ ["\"" ++ conn.from_interface ++ "\" as \"" ++ conn.to_interface ++
                "\" from \"" ++ from_node_label ++ "\"" ++ path_indicator]
    else acc) []

/-- `format_input_info`: the singular/dual/plural English-list phrasing over
the detail list. -/
def format_input_info (s : FlowSchema) (starts : List String) (node_id : String)
    (current_step_thread_id : Nat) : String :=
  match format_input_details s starts node_id current_step_thread_id with
  | [] => ""
  | [a] => "Using " ++ a ++ ": "
  | [a, b] => "Using " ++ a ++ " and " ++ b ++ ": "
  | l => "Using " ++ String.intercalate ", " (l.dropLast) ++ ", and " ++
      (l.getLast?.getD "") ++ ": "

/-- One rendered step line of the text report. -/
def render_step_line (s : FlowSchema) (starts : List String) (tid : Nat)
    (step_number : Nat) (node_id : String) : String :=
  let n := (lookupNode s node_id).getD (ghostNode node_id)
  "    " ++ toString step_number ++ ". " ++
    format_input_info s starts node_id tid ++
    formatDescription (stepTemplate n node_id) ++ " (" ++ n.label ++ ")"

/-- The step lines of a thread in a Section block (lines 681-710): skip a
leading Section node, skip inner Section nodes, number the rest. -/
def render_steps_section (s : FlowSchema) (starts : List String) (p : PathInfo) :
    List String :=
  let start_index := if (section_nodes s).contains (p.path.headD "") then 1 else 0
  ((p.path.drop start_index).filter
    (fun nid => ¬ (section_nodes s).contains nid)).enum.map
    (fun pr => render_step_line s starts p.pid (pr.1 + 1) pr.2)

/-- The step lines of a standalone thread (lines 731-751): same skipping of
Section nodes, without the leading-node special case. -/
def render_steps_standalone (s : FlowSchema) (starts : List String) (p : PathInfo) :
    List String :=
  (p.path.filter (fun nid => ¬ (section_nodes s).contains nid)).enum.map
    (fun pr => render_step_line s starts p.pid (pr.1 + 1) pr.2)

/-- The `Continues in:` trailer of a thread in the text report, sorted by
target thread id. -/
def render_connections (s : FlowSchema) (starts : List String) (pid : Nat) :
    List String :=
  let to_paths := path_connections_text s starts pid
  if to_paths.isEmpty then []
  else
    "      Continues in:" ::
      (pySorted (fun a b => a.path_id ≤ b.path_id) to_paths).map
        (fun conn => "      - Step Thread " ++ toString conn.path_id ++
          " (via " ++ conn.via_interface ++ " interface)")

/-- The grouping loop of `parse_all_paths` step 7b (lines 609-652): pair each
final path with its assigned Section, skipping Section-only singletons;
paths with an `inf` first-node x go standalone immediately. -/
def grouped_paths_text (s : FlowSchema) (starts : List String) :
    List (Option String × PathInfo) :=
  (final_paths_with s starts).foldl (fun acc p =>
    match p.path with
    | [] => acc
    | first :: _ =>
      if (section_nodes s).contains first && p.path.length = 1 then acc
      else
        let first_x := (get_sort_key s p).1
        if first_x = .posInf then acc ++ [(none, p)]
        else
          match assign_section s first first_x with
          | some sid =>
            if sid ≠ "" && (section_label s sid).isSome then acc ++ [(some sid, p)]
            else acc ++ [(none, p)]
          | none => acc ++ [(none, p)]) []

/-- `section_threads_map[label]` of the text report. -/
def section_paths_for_label_text (s : FlowSchema) (starts : List String)
    (label : String) : List PathInfo :=
  (grouped_paths_text s starts).foldl (fun acc pr =>
    match pr.1 with
    | some sid => if section_label s sid = some label then acc ++ [pr.2] else acc
    | none => acc) []

/-- The standalone path list of the text report. -/
def standalone_paths_text (s : FlowSchema) (starts : List String) : List PathInfo :=
  (grouped_paths_text s starts).foldl (fun acc pr =>
    match pr.1 with
    | some _ => acc
    | none => acc ++ [pr.2]) []

/-- The text Section header template: shown only when the story template is
truthy and differs from the label. -/
def section_header_template_text (s : FlowSchema) (label : String) : String :=
  match (section_nodes s).find? (fun sid => section_label s sid = some label) with
  | none => ""
  | some sid =>
    match lookupNode s sid with
    | none => ""
    | some n =>
      if n.filled_story_template ≠ "" && n.filled_story_template ≠ label then
        pyStrip n.filled_story_template
      else ""

/-- One Section block of the text report (lines 656-719). -/
def render_section_block (s : FlowSchema) (starts : List String) (label : String) :
    List String :=
  let threads := section_paths_for_label_text s starts label
  if threads.isEmpty then []
  else
    let template_content := section_header_template_text s label
    let header_extra :=
      if template_content ≠ "" then " (" ++ template_content ++ ")" else ""
    ("\n==== Section: " ++ label ++ header_extra ++ " ====") ::
      threads.foldl (fun acc p =>
        acc ++ ["\n  == Step Thread " ++ toString p.pid ++ " =="] ++
          render_steps_section s starts p ++
          render_connections s starts p.pid) []

/-- The standalone block of the text report (lines 721-760). -/
def render_standalone_block (s : FlowSchema) (starts : List String) : List String :=
  let standalone := standalone_paths_text s starts
  if standalone.isEmpty then []
  else
    "\n==== Standalone Threads ====" ::
      standalone.foldl (fun acc p =>
        acc ++ ["\n  == Step Thread " ++ toString p.pid ++ " =="] ++
          render_steps_standalone s starts p ++
          render_connections s starts p.pid) []

/-- The `(pos_x, pos_y)` of a Section node in the text summary (lines
770-777): assignments inside the `try` are partial, so a parsed x survives a
failing y. -/
def section_pos_partial (s : FlowSchema) (sid : String) : XVal × XVal :=
  match lookupNode s sid with
  | none => (.posInf, .posInf)
  | some n =>
    match n.position.x with
    | none => (.posInf, .posInf)
    | some x =>
      match n.position.y with
      | none => (.fin x, .posInf)
      | some y => (.fin x, .fin y)

/-- Comparison of the text summary sort tuples `(pos_y, pos_x, line)`:
Python compares the line strings when both coordinates tie. -/
def summaryTupleLE (a b : XVal × XVal × String) : Bool :=
  XVal.blt a.1 b.1 ||
    (a.1 = b.1 && (XVal.blt a.2.1 b.2.1 || (a.2.1 = b.2.1 && pyStrLe a.2.2 b.2.2)))

/-- The `Sections Found:` lines of the text summary (lines 766-788), sorted
by `(y, x, line)`. -/
def render_summary_sections (s : FlowSchema) (starts : List String) : List String :=
  if (section_nodes s).isEmpty then []
  else
    let infos := (section_nodes s).filterMap (fun sid =>
      match lookupNode s sid with
      | none => none
      | some n =>
        let pos := section_pos_partial s sid
        let thread_count := (section_paths_for_label_text s starts n.label).length
        let thread_str :=
          if thread_count > 0 then
            " (contains " ++ toString thread_count ++ " Step Threads)"
          else ""
        let template_summary :=
          if n.filled_story_template ≠ "" && n.filled_story_template ≠ n.label then
            " (" ++ pyStrip n.filled_story_template ++ ")"
          else ""
        some (pos.2, pos.1,
          "- " ++ n.label ++ template_summary ++ thread_str ++
            " (Node ID: " ++ sid ++ ")"))
    "\nSections Found:" :: (pySorted summaryTupleLE infos).map (fun t => t.2.2)

/-- `parse_all_paths` (lines 220-791): the empty-schema error string, or the
joined report lines — header, Section blocks in sorted-section order, the
standalone block, and the summary. -/
def parse_all_paths (s : FlowSchema) : String :=
  if s.nodes.isEmpty then "Error: No nodes found in the flow schema."
  else
    let starts := ordered_linear_starts_text s
    let lines :=
      ["--- All Flow Step Threads ---"] ++
      (section_order s).foldl (fun acc label =>
        acc ++ render_section_block s starts label) [] ++
      render_standalone_block s starts ++
      ["\nSummary: Identified " ++
        toString (complete_paths_with s starts).length ++
        " distinct Step Threads/segments"] ++
      render_summary_sections s starts
    String.intercalate "\n" lines

/-- The outcome of the two external calls made by the JSON entry points:
`json.loads` raising (malformed), `build_flow_schema_from_dict` or the
analysis raising inside the `try` (conversion failure, each caught by the
`except` clause), or a successfully converted schema. -/
inductive JsonInput : Type
  | malformed (detail : String) : JsonInput
  | convFail (detail : String) : JsonInput
  | good (s : FlowSchema) : JsonInput

/-- `parse_all_paths_json` (lines 800-832): plain error strings for the two
failure modes, otherwise the text report. -/
def parse_all_paths_json : JsonInput → String
  | .malformed d => "Error: Invalid JSON provided. " ++ d
  | .convFail d => "Error: Failed to convert JSON to FlowSchema or parse paths. " ++ d
  | .good s => parse_all_paths s

/-- The JSON text `json.dumps({"error": m})`. -/
def errJson (m : String) : String := "\x7b\"error\": \"" ++ m ++ "\"\x7d"

/-- The serialized value returned by `parse_all_paths_dict_json`: the dump of
either an `{"error": ...}` object or of the structured result. -/
inductive DumpedJson : Type
  | errorObj (msg : String) : DumpedJson
  | resultObj (d : FinalDict) : DumpedJson
deriving DecidableEq, Repr

/-- `parse_all_paths_dict_json` (lines 1252-1284): a dumped error object for
malformed JSON and for conversion failures (note the `... to dict.` message),
otherwise the dump of the `parse_all_paths_dict` value — which is itself the
error object when the schema is empty. -/
def parse_all_paths_dict_json : JsonInput → DumpedJson
  | .malformed d => .errorObj ("Invalid JSON provided. " ++ d)
  | .convFail d =>
      .errorObj ("Failed to convert JSON to FlowSchema or parse paths to dict. " ++ d)
  | .good s =>
    match parse_all_paths_dict s with
    | .err m => .errorObj m
    | .ok d => .resultObj d

/-- The decision taken at one step of a linear trace, as the spec's Step 3
words it: either the thread ends with a termination type (and the recorded
`ends_at` / `via` data), or the trace advances along the designated edge. -/
inductive StepDecision : Type
  | ends (end_type : String) (ends_at : Option String) (via : Option String) : StepDecision
  | advance (e : OutEdge) : StepDecision
deriving DecidableEq, Repr

/-- The claimed termination rules, in the claimed priority order, written
from the claim text: outdegree 0 ends as `linear_endpoint`; outdegree above 1
on a non-Section ends as `linear_to_branch` at the current node; a designated
successor (the first outgoing edge) that is a junction ends as
`linear_to_junction` recording the departure interface; a designated
successor already visited in this trace ends as `linear_cycle` without
re-adding it; a designated successor already processed ends as
`linear_reaches_processed`; otherwise the trace advances to the successor.
`vis2`/`proc2` are the visited/processed sets after the current node was
added. -/
def claimedDecision (s : FlowSchema) (vis2 proc2 : List String) (cur : String) :
    StepDecision :=
  let out := outgoing_connections s cur
  if out.length = 0 then .ends "linear_endpoint" none none
  else if out.length > 1 && ¬ (section_nodes s).contains cur then
    .ends "linear_to_branch" (some cur) none
  else
    let e := out.headD ⟨"", "", "", ""⟩
    if (junction_nodes s).contains e.to_node then
      .ends "linear_to_junction" (some e.to_node) (some e.from_interface)
    else if vis2.contains e.to_node then .ends "linear_cycle" none none
    else if proc2.contains e.to_node then
      .ends "linear_reaches_processed" (some e.to_node) none
    else .advance e

/-- The six linear termination types the trace loop can store. -/
def linearEndTypes : List String :=
  ["linear_endpoint", "linear_to_branch", "linear_error", "linear_to_junction",
   "linear_cycle", "linear_reaches_processed"]

/-- The total number of occurrences of a node id across all final thread node
lists. -/
def thread_count_with (s : FlowSchema) (st : List String) (nid : String) : Nat :=
  ((final_paths_with s st).map (fun p => p.path.count nid)).sum

/-- The per-path contribution of step 6a. -/
def delta_6a (s : FlowSchema) (starts : List String) (lp : PathInfo) :
    List (Nat × LinkEntry) :=
  match final_path_id_map s starts lp.temp_id with
  | none => []
  | some current_pid =>
    if lp.ptype = "linear_to_junction" || lp.ptype = "linear_to_branch" then
      match lp.ends_at_junction with
      | none => []
      | some nj =>
        match junction_path_final_map s starts nj with
        | some jp => [(current_pid, ⟨jp.pid, orOutput lp.via_interface⟩)]
        | none => []
    else []

/-- The per-edge contribution of step 6b in `parse_all_paths_dict`. -/
def delta_6b_conn (s : FlowSchema) (starts : List String) (jp : PathInfo)
    (conn : OutEdge) : List (Nat × LinkEntry) :=
  match
    (match junction_path_final_map s starts conn.to_node with
     | some q => some q.pid
     | none =>
       match linear_path_node_map s starts conn.to_node with
       | some q => some q.pid
       | none => none) with
  | some t => [(jp.pid, ⟨t, conn.from_interface⟩)]
  | none => []

/-- A test node: label and name derived from the id. -/
def testNode (i ty : String) (x y : Option Int) (tmpl : String) : FlowNode :=
  ⟨i, i ++ "-label", i ++ "-name", ty, ⟨x, y⟩, tmpl⟩

/-- A test connection. -/
def testConn (cid fromN fromI toN toI : String) : Connection :=
  ⟨cid, fromN, fromI, toN, toI⟩

/-- C1 counterexample input: `D → S` with `S` a Section (so a linear trace
flows into `S`), plus a two-node cycle `A → B → A` with no root, junction or
Section, which the partitioner never visits. -/
def c1Schema : FlowSchema :=
  ⟨[testNode "D" "basic" (some 0) (some 0) "",
    testNode "S" "Section" (some 50) (some 0) "",
    testNode "A" "basic" (some 100) (some 0) "",
    testNode "B" "basic" (some 150) (some 0) ""],
   [testConn "c1" "D" "o" "S" "i",
    testConn "c2" "A" "o" "B" "i",
    testConn "c3" "B" "o" "A" "i"]⟩

/-- C1 witness input: a branch node `A` with successors `B` and `C`. -/
def c1WitnessSchema : FlowSchema :=
  ⟨[testNode "A" "basic" (some 0) (some 0) "",
    testNode "B" "basic" (some 100) (some 0) "",
    testNode "C" "basic" (some 100) (some 50) ""],
   [testConn "c1" "A" "o1" "B" "i1",
    testConn "c2" "A" "o2" "C" "i2"]⟩

/-- Claim C1 as stated: every non-Section node of the schema appears in
exactly one Step Thread and every Section node in none, in both variants. -/
def C1claim (s : FlowSchema) : Prop :=
  (∀ n ∈ nodes_dict s, n.type ≠ "Section" →
    thread_count_with s (ordered_linear_starts_text s) n.id = 1 ∧
    thread_count_with s (ordered_linear_starts_dict s) n.id = 1) ∧
  (∀ n ∈ nodes_dict s, n.type = "Section" →
    thread_count_with s (ordered_linear_starts_text s) n.id = 0 ∧
    thread_count_with s (ordered_linear_starts_dict s) n.id = 0)

/-- C2 counterexample input: `A → C` with an empty destination interface (so
the edge is traversable but invisible to `C`'s indegree) and `B → C` normal;
the trace from `B` ends `linear_reaches_processed` at `C`. -/
def c2Schema : FlowSchema :=
  ⟨[testNode "A" "basic" (some 0) (some 0) "",
    testNode "B" "basic" (some 10) (some 0) "",
    testNode "C" "basic" (some 20) (some 0) ""],
   [testConn "c1" "A" "o" "C" "",
    testConn "c2" "B" "o" "C" "i"]⟩

/-- Claim C2's parenthetical as stated: a `linear_reaches_processed` thread
still records a forward link. -/
def C2claim (s : FlowSchema) : Prop :=
  ∀ p ∈ final_paths_dict s, p.ptype = "linear_reaches_processed" →
    path_connections_dict s (ordered_linear_starts_dict s) p.pid ≠ []

/-- C3 counterexample input: two roots `D`, `X` both feeding the Section `S`;
`S` has indegree 2 and sits (not first) inside the linear thread `[D, S]`. -/
def c3Schema : FlowSchema :=
  ⟨[testNode "D" "basic" (some 0) (some 0) "",
    testNode "X" "basic" (some 10) (some 0) "",
    testNode "S" "Section" (some 20) (some 0) ""],
   [testConn "c1" "D" "o" "S" "i1",
    testConn "c2" "X" "o" "S" "i2"]⟩

/-- Claim C3 as stated: junction isolation plus "no linear thread ever
contains a node with indegree>1 (except a root)". -/
def C3claim (s : FlowSchema) : Prop :=
  (∀ n ∈ nodes_dict s, n.type ≠ "Section" →
    ((incoming_connections s n.id).length > 1 ∨
     (outgoing_connections s n.id).length > 1) →
    ∃ p ∈ final_paths_dict s, p.path = [n.id] ∧
      p.ptype ∈ ["merge_node", "branch_node", "merge_and_branch_node"]) ∧
  (∀ p ∈ final_paths_dict s, pyStartsWith p.ptype "linear" = true →
    ∀ nid ∈ p.path, (incoming_connections s nid).length > 1 → nid ∈ root_nodes s)

/-- The final thread containing a given node (the first one, in sorted
order). -/
def junction_thread (s : FlowSchema) (st : List String) (j : String) :
    Option PathInfo :=
  (final_paths_with s st).find? (fun q => q.path.contains j)

/-- C4 failing input: a branch node `P` with successors `Q` and `R`. -/
def c4Schema : FlowSchema :=
  ⟨[testNode "P" "basic" (some 0) (some 0) "",
    testNode "Q" "basic" (some 100) (some 0) "",
    testNode "R" "basic" (some 100) (some 50) ""],
   [testConn "c1" "P" "o1" "Q" "i1",
    testConn "c2" "P" "o2" "R" "i2"]⟩

/-- C5 failing input: Scenario B — a branch node `A` with two outputs to `B`
and `C`. -/
def c5Schema : FlowSchema :=
  ⟨[testNode "A" "basic" (some 0) (some 0) "",
    testNode "B" "basic" (some 100) (some 0) "",
    testNode "C" "basic" (some 100) (some 50) ""],
   [testConn "c1" "A" "o1" "B" "i1",
    testConn "c2" "A" "o2" "C" "i2"]⟩

/-- C6 counterexample input: a connection with an empty destination interface
and a connection to a missing node, both surfaced in `A`'s outgoing
adjacency. -/
def c6Schema : FlowSchema :=
  ⟨[testNode "A" "basic" (some 0) (some 0) "",
    testNode "B" "basic" (some 10) (some 0) ""],
   [testConn "c1" "A" "o" "B" "",
    testConn "c2" "A" "o2" "GHOST" "i"]⟩

/-- Claim C6 as stated: a connection with a missing endpoint or an empty
interface name is never surfaced in the outgoing or incoming adjacency. -/
def C6claim (s : FlowSchema) : Prop :=
  ∀ c ∈ s.connections,
    (c.outputNode ∉ nodeIds s ∨ c.inputNode ∉ nodeIds s ∨
     c.outputNodeInterface = "" ∨ c.inputNodeInterface = "") →
    ∀ nid ∈ nodeIds s,
      (∀ e ∈ outgoing_connections s nid, e.connection_id ≠ c.id) ∧
      (∀ e ∈ incoming_connections s nid, e.connection_id ≠ c.id)

/-- The Scenario C family for C7: Section `S` feeding `D` feeding `E`, with
arbitrary layout positions. -/
def c7Family (sx sy dx dy ex ey : Option Int) : FlowSchema :=
  ⟨[testNode "S" "Section" sx sy "the section story",
    testNode "D" "basic" dx dy "do d",
    testNode "E" "basic" ex ey "do e"],
   [testConn "c1" "S" "o" "D" "i",
    testConn "c2" "D" "o" "E" "i"]⟩

/-- The `sections` list of a structured result. -/
def dictSections : DictResult → List SectionOut
  | .err _ => []
  | .ok d => d.sections

/-- The `standalone_threads` list of a structured result. -/
def dictStandalone : DictResult → List ThreadDict
  | .err _ => []
  | .ok d => d.standalone_threads

/-- Claim C7 as stated: for the Scenario C family, the `[D, E]` thread is
grouped under Section `S` in the structured output regardless of the nodes'
layout positions. -/
def C7claim : Prop :=
  ∀ sx sy dx dy ex ey : Int,
    (dictSections (parse_all_paths_dict
      (c7Family (some sx) (some sy) (some dx) (some dy) (some ex) (some ey)))).map
        (fun sec => sec.label) = ["S-label"] ∧
    dictStandalone (parse_all_paths_dict
      (c7Family (some sx) (some sy) (some dx) (some dy) (some ex) (some ey))) = []

/-- C8 witness input: a two-node cycle `A → B → A` where the return edge has
an empty destination interface, so `A` stays a root and the trace from `A`
meets the cycle and ends `linear_cycle`. -/
def c8Schema : FlowSchema :=
  ⟨[testNode "A" "basic" (some 0) (some 0) "",
    testNode "B" "basic" (some 10) (some 0) ""],
   [testConn "c1" "A" "o" "B" "i",
    testConn "c2" "B" "o2" "A" ""]⟩

/-- The junction path tags. -/
def junctionTypes : List String := ["merge_node", "branch_node", "merge_and_branch_node"]

/-- Claim C9 as stated: both JSON entry points return the `{"error": ...}`
value with the three stated messages. -/
def C9claim : Prop :=
  (∀ d, parse_all_paths_json (.malformed d) =
    errJson ("Invalid JSON provided. " ++ d)) ∧
  (∀ d, parse_all_paths_dict_json (.malformed d) =
    .errorObj ("Invalid JSON provided. " ++ d)) ∧
  (∀ d, parse_all_paths_json (.convFail d) =
    errJson ("Failed to convert JSON to FlowSchema or parse paths. " ++ d)) ∧
  (∀ d, parse_all_paths_dict_json (.convFail d) =
    .errorObj ("Failed to convert JSON to FlowSchema or parse paths. " ++ d)) ∧
  (∀ s : FlowSchema, s.nodes = [] →
    parse_all_paths_json (.good s) = errJson "No nodes found in the flow schema." ∧
    parse_all_paths_dict_json (.good s) = .errorObj "No nodes found in the flow schema.")

/-- C10 witness input: a node `T` with incoming connections from a normal
node, from a Section, and one with an empty source interface. -/
def c10Schema : FlowSchema :=
  ⟨[testNode "U" "basic" (some 0) (some 0) "",
    testNode "SEC" "Section" (some 0) (some 50) "",
    testNode "V" "basic" (some 0) (some 100) "",
    testNode "T" "basic" (some 100) (some 0) ""],
   [testConn "c1" "U" "ou" "T" "i1",
    testConn "c2" "SEC" "os" "T" "i2",
    testConn "c3" "V" "" "T" "i3"]⟩

/-- The raw-connection predicate that C10 claims characterizes a step's
listed inputs: destination is the node, both endpoint ids are truthy, both
interface names are non-empty, and the source is not a Section node. -/
def c10Pred (s : FlowSchema) (nid : String) (c : Connection) : Bool :=
  c.inputNode = nid && c.outputNode ≠ "" && c.inputNodeInterface ≠ "" &&
    c.outputNodeInterface ≠ "" && ¬ (section_nodes s).contains c.outputNode

/-- The input-detail string built by `format_input_info` for one incoming
connection. -/
def inputDetailString (s : FlowSchema) (st : List String) (tid : Nat)
    (c : Connection) : String :=
  let from_node_label :=
    match lookupNode s c.outputNode with
    | some n => n.label
    | none => "Unknown"
  let relevant := (nodes_in_paths s st c.outputNode).filter (fun p => p ≠ tid)
  let path_indicator :=
    if relevant.isEmpty then ""
    else " (from " ++ String.intercalate ", "
      ((pySorted (fun a b => a ≤ b) relevant).map
        (fun p => "Step Thread " ++ toString p)) ++ ")"
  "\"" ++ c.outputNodeInterface ++ "\" as \"" ++ c.inputNodeInterface ++
    "\" from \"" ++ from_node_label ++ "\"" ++ path_indicator

/-- The detail record built by `get_input_details` for one incoming edge. -/
def mkInputDetail (s : FlowSchema) (starts : List String)
    (current_step_thread_id : Nat) (conn : InEdge) : InputDetail :=
  ⟨(match lookupNode s conn.from_node with
    | some n => n.label
    | none => "Unknown"), conn.from_node, conn.from_interface, conn.to_interface,
   pySorted (fun a b => a ≤ b)
     ((nodes_in_paths s starts conn.from_node).filter
       (fun p => p ≠ current_step_thread_id))⟩

/-- The rendered line built by `format_input_details` for one incoming edge. -/
def mkInputLine (s : FlowSchema) (starts : List String)
    (current_step_thread_id : Nat) (conn : InEdge) : String :=
  "\"" ++ conn.from_interface ++ "\" as \"" ++ conn.to_interface ++
    "\" from \"" ++
    (match lookupNode s conn.from_node with
     | some n => n.label
     | none => "Unknown") ++ "\"" ++
    (if ((nodes_in_paths s starts conn.from_node).filter
        (fun p => p ≠ current_step_thread_id)).isEmpty then ""
     else " (from " ++ String.intercalate ", "
       ((pySorted (fun a b => a ≤ b)
         ((nodes_in_paths s starts conn.from_node).filter
           (fun p => p ≠ current_step_thread_id))).map
         (fun p => "Step Thread " ++ toString p)) ++ ")")

/-- The single linear thread traced for the Scenario C family: `[D, E]`,
ending `linear_endpoint`, with ids 1. -/
def c7Path : PathInfo :=
  ⟨["D", "E"], [⟨"D", "E", "o", "i"⟩], "linear_endpoint", 1, 1, none, none⟩

/-- The thread dictionary built for `c7Path` in the structured output. -/
def c7Thread : ThreadDict :=
  ⟨1, [⟨1, "D-label", "D", "Do d.", []⟩,
       ⟨2, "E-label", "E", "Do e.", [⟨"D-label", "D", "o", "i", []⟩]⟩], []⟩

theorem containsStr_iff {l : List String} {a : String} : l.contains a = true ↔ a ∈ l :=
  List.elem_iff

theorem insertStable_perm {α : Type} (le : α → α → Bool) (a : α) (l : List α) :
    (insertStable le a l).Perm (a :: l) := by
  induction l with
  | nil => simp [insertStable]
  | cons b bs ih =>
    simp only [insertStable]
    split
    · exact (ih.cons b).trans (List.Perm.swap a b bs)
    · exact List.Perm.refl _

theorem pySorted_aux_perm {α : Type} (le : α → α → Bool) :
    ∀ (l acc : List α),
      (l.foldl (fun acc a => insertStable le a acc) acc).Perm (acc ++ l) := by
  intro l
  induction l with
  | nil => intro acc; simp
  | cons a rest ih =>
    intro acc
    have h1 := ih (insertStable le a acc)
    have h2 : (insertStable le a acc ++ rest).Perm (acc ++ a :: rest) := by
      have := (insertStable_perm le a acc).append_right rest
      exact this.trans (List.perm_middle.symm)
    rw [List.foldl_cons]
    exact h1.trans h2

theorem pySorted_perm {α : Type} (le : α → α → Bool) (l : List α) :
    (pySorted le l).Perm l := by
  simpa using pySorted_aux_perm le l []

theorem foldl_append_filter_map {α β : Type} (p : α → Bool) (f : α → β) :
    ∀ (l : List α) (acc : List β),
      l.foldl (fun acc x => if p x then acc ++ [f x] else acc) acc =
        acc ++ (l.filter p).map f := by
  intro l
  induction l with
  | nil => intro acc; simp
  | cons a rest ih =>
    intro acc
    by_cases h : p a = true
    · simp [h, ih, List.filter_cons]
    · simp only [Bool.not_eq_true] at h
      simp [h, ih, List.filter_cons]

theorem pyDictInsertNode_ids (acc : List FlowNode) (n : FlowNode) :
    (pyDictInsertNode acc n).map (fun m => m.id) =
      if acc.any (fun m => m.id = n.id) then acc.map (fun m => m.id)
      else acc.map (fun m => m.id) ++ [n.id] := by
  unfold pyDictInsertNode
  split
  · simp only [List.map_map]
    refine List.map_congr_left ?_
    intro m _
    simp only [Function.comp_apply]
    split
    · next h => exact h.symm
    · rfl
  · simp

theorem nodes_dict_aux_nodup :
    ∀ (l : List FlowNode) (acc : List FlowNode),
      ((acc.map (fun m => m.id)).Nodup) →
      (((l.foldl pyDictInsertNode acc).map (fun m => m.id)).Nodup) := by
  intro l
  induction l with
  | nil => intro acc h; simpa using h
  | cons a rest ih =>
    intro acc h
    rw [List.foldl_cons]
    apply ih
    rw [pyDictInsertNode_ids]
    split
    · exact h
    · next hna =>
      rw [List.nodup_append]
      refine ⟨h, List.nodup_singleton _, ?_⟩
      intro x hx
      simp only [List.mem_singleton]
      intro hxa
      subst hxa
      simp only [List.any_eq_true, decide_eq_true_eq] at hna
      rw [List.mem_map] at hx
      obtain ⟨m, hm, hmid⟩ := hx
      exact hna ⟨m, hm, hmid⟩

theorem nodeIds_nodup (s : FlowSchema) : (nodeIds s).Nodup := by
  unfold nodeIds nodes_dict
  exact nodes_dict_aux_nodup _ [] (by simp)

theorem nodes_dict_aux_ne :
    ∀ (l : List FlowNode) (acc : List FlowNode),
      (∀ n ∈ l, n.id ≠ "") → (∀ m ∈ acc, m.id ≠ "") →
      ∀ m ∈ l.foldl pyDictInsertNode acc, m.id ≠ "" := by
  intro l
  induction l with
  | nil => intro acc _ hacc m hm; exact hacc m hm
  | cons a rest ih =>
    intro acc hl hacc m hm
    rw [List.foldl_cons] at hm
    refine ih _ (fun n hn => hl n (List.mem_cons_of_mem _ hn)) ?_ m hm
    intro m' hm'
    unfold pyDictInsertNode at hm'
    split at hm'
    · rw [List.mem_map] at hm'
      obtain ⟨m0, hm0, hrep⟩ := hm'
      subst hrep
      split
      · exact hl a (List.mem_cons_self _ _)
      · exact hacc m0 hm0
    · rw [List.mem_append] at hm'
      rcases hm' with h | h
      · exact hacc m' h
      · rw [List.mem_singleton] at h
        rw [h]
        exact hl a (List.mem_cons_self _ _)

theorem nodeIds_ne_empty (s : FlowSchema) : ∀ i ∈ nodeIds s, i ≠ "" := by
  intro i hi
  unfold nodeIds nodes_dict at hi
  rw [List.mem_map] at hi
  obtain ⟨m, hm, hmid⟩ := hi
  subst hmid
  refine nodes_dict_aux_ne _ [] ?_ (by simp) m hm
  intro n hn
  rw [List.mem_filter] at hn
  simpa using hn.2

theorem traceLoop_step (s : FlowSchema) (fuel : Nat) (proc vis path : List String)
    (conn : List ConnInfo) (cur : String) (h1 : cur ∉ proc) (h2 : cur ∉ vis) :
    traceLoop s (fuel + 1) proc vis path conn cur =
      match claimedDecision s (vis ++ [cur]) (proc ++ [cur]) cur with
      | .ends t ea v => ⟨path ++ [cur], conn, t, ea, v, proc ++ [cur]⟩
      | .advance e =>
        traceLoop s fuel (proc ++ [cur]) (vis ++ [cur]) (path ++ [cur])
          (conn ++ [⟨cur, e.to_node, e.from_interface, e.to_interface⟩]) e.to_node := by
  have hcond : ¬ ((proc.contains cur || vis.contains cur) = true) := by
    simp only [Bool.or_eq_true, containsStr_iff]
    rintro (h | h)
    · exact h1 h
    · exact h2 h
  cases houtg : outgoing_connections s cur with
  | nil =>
    simp only [traceLoop, claimedDecision, houtg, if_neg hcond]
    simp
  | cons c rest =>
    simp only [traceLoop, claimedDecision, houtg, if_neg hcond]
    rcases Bool.eq_false_or_eq_true
        (((c :: rest).length > 1 && ¬ (section_nodes s).contains cur : Bool)) with hbr | hbr
    · simp only [hbr]
      simp [List.headD_cons]
    · simp only [hbr]
      simp [List.headD_cons]
      split_ifs <;> simp

theorem outgoing_ne_nil_mem {s : FlowSchema} {cur : String}
    (h : outgoing_connections s cur ≠ []) : cur ∈ nodeIds s := by
  unfold outgoing_connections at h
  split at h
  · next hc => exact containsStr_iff.mp hc
  · exact absurd rfl h

theorem claimedDecision_advance {s : FlowSchema} {vis2 proc2 : List String}
    {cur : String} {e : OutEdge}
    (h : claimedDecision s vis2 proc2 cur = .advance e) :
    outgoing_connections s cur ≠ [] ∧
    e = (outgoing_connections s cur).headD ⟨"", "", "", ""⟩ ∧
    e.to_node ∉ vis2 ∧ e.to_node ∉ proc2 := by
  unfold claimedDecision at h
  dsimp only at h
  split_ifs at h with h0 h1 h2 h3 h4 <;>
    try exact StepDecision.noConfusion h
  injection h with he
  subst he
  refine ⟨?_, rfl, ?_, ?_⟩
  · intro hnil
    rw [hnil] at h0
    exact h0 rfl
  · intro hmem
    exact h3 (containsStr_iff.mpr hmem)
  · intro hmem
    exact h4 (containsStr_iff.mpr hmem)

theorem claimedDecision_ends_types {s : FlowSchema} {vis2 proc2 : List String}
    {cur : String} {t : String} {ea v : Option String}
    (h : claimedDecision s vis2 proc2 cur = .ends t ea v) :
    t = "linear_endpoint" ∨ t = "linear_to_branch" ∨ t = "linear_to_junction" ∨
    t = "linear_cycle" ∨ t = "linear_reaches_processed" := by
  unfold claimedDecision at h
  dsimp only at h
  split_ifs at h <;> (try cases h) <;> simp

theorem traceLoop_delta (s : FlowSchema) :
    ∀ (fuel : Nat) (proc vis path : List String) (conn : List ConnInfo) (cur : String),
      cur ∉ proc → cur ∉ vis →
      ∃ Δ : List String,
        (traceLoop s fuel proc vis path conn cur).processed = proc ++ Δ ∧
        (traceLoop s fuel proc vis path conn cur).path = path ++ Δ ∧
        Δ.Nodup ∧ ∀ x ∈ Δ, x ∉ proc := by
  intro fuel
  induction fuel with
  | zero =>
    intro proc vis path conn cur _ _
    exact ⟨[], by simp [traceLoop], by simp [traceLoop], List.nodup_nil, by simp⟩
  | succ fuel ih =>
    intro proc vis path conn cur h1 h2
    rw [traceLoop_step s fuel proc vis path conn cur h1 h2]
    cases hd : claimedDecision s (vis ++ [cur]) (proc ++ [cur]) cur with
    | ends t ea v =>
      refine ⟨[cur], by simp, by simp, List.nodup_singleton _, ?_⟩
      intro x hx
      rw [List.mem_singleton] at hx
      subst hx
      exact h1
    | advance e =>
      obtain ⟨-, -, hv, hp⟩ := claimedDecision_advance hd
      obtain ⟨Δ, hΔ1, hΔ2, hΔ3, hΔ4⟩ := ih (proc ++ [cur]) (vis ++ [cur])
        (path ++ [cur]) (conn ++ [⟨cur, e.to_node, e.from_interface, e.to_interface⟩])
        e.to_node hp hv
      refine ⟨cur :: Δ, ?_, ?_, ?_, ?_⟩
      · simpa using hΔ1
      · simpa using hΔ2
      · refine List.nodup_cons.mpr ⟨?_, hΔ3⟩
        intro hmem
        exact hΔ4 cur hmem (by simp)
      · intro x hx
        rcases List.mem_cons.mp hx with h | h
        · subst h; exact h1
        · intro hxp
          exact hΔ4 x h (by simp [hxp])

theorem countP_imp_le {p q : String → Bool} :
    ∀ (l : List String), (∀ a ∈ l, p a = true → q a = true) →
      (l.filter p).length ≤ (l.filter q).length := by
  intro l
  induction l with
  | nil => intro _; simp
  | cons a rest ih =>
    intro h
    rw [List.filter_cons, List.filter_cons]
    by_cases hp : p a = true
    · rw [if_pos hp, if_pos (h a (List.mem_cons_self _ _) hp)]
      simpa using ih (fun b hb => h b (List.mem_cons_of_mem _ hb))
    · rw [if_neg hp]
      split
      · exact Nat.le_succ_of_le (ih (fun b hb => h b (List.mem_cons_of_mem _ hb)))
      · exact ih (fun b hb => h b (List.mem_cons_of_mem _ hb))

theorem filter_exclude_len (v : List String) (c : String) :
    ∀ {l : List String}, l.Nodup → c ∈ l → c ∉ v →
      (l.filter (fun i => ¬ (v ++ [c]).contains i)).length + 1 ≤
        (l.filter (fun i => ¬ v.contains i)).length := by
  intro l
  induction l with
  | nil => intro _ hc _; cases hc
  | cons a rest ih =>
    intro hn hc hv
    rw [List.filter_cons, List.filter_cons]
    by_cases hca : c = a
    · subst hca
      have hpc : (¬ (v ++ [c]).contains c : Bool) = false := by
        simp [containsStr_iff]
      have hqc : (decide ¬ (v.contains c = true)) = true := by
        simp [containsStr_iff, hv]
      rw [hpc]
      simp only [Bool.false_eq_true, if_false, hqc, if_true, List.length_cons]
      have hsub : ∀ a ∈ rest, (¬ (v ++ [c]).contains a : Bool) = true →
          (¬ v.contains a : Bool) = true := by
        intro a _ ha
        simp only [decide_eq_true_eq, containsStr_iff] at ha ⊢
        intro hmem
        exact ha (by simp [List.mem_append, hmem])
      have := countP_imp_le rest hsub
      omega
    · have hcr : c ∈ rest := by
        rcases List.mem_cons.mp hc with h | h
        · exact absurd h hca
        · exact h
      have hrest := ih (List.nodup_cons.mp hn).2 hcr hv
      by_cases hva : a ∈ v
      · have hpa : (¬ (v ++ [c]).contains a : Bool) = false := by
          simp [containsStr_iff, List.mem_append, hva]
        have hqa : (¬ v.contains a : Bool) = false := by
          simp [containsStr_iff, hva]
        rw [hpa, hqa]
        simpa using hrest
      · have hpa : (¬ (v ++ [c]).contains a : Bool) = true := by
          simp only [decide_eq_true_eq, containsStr_iff]
          intro hmem
          rcases List.mem_append.mp hmem with h | h
          · exact hva h
          · rw [List.mem_singleton] at h
            exact hca h.symm
        have hqa : (¬ v.contains a : Bool) = true := by
          simp [containsStr_iff, hva]
        rw [hpa, hqa]
        simp only [eq_self_iff_true, if_true, List.length_cons]
        omega

theorem nodes_dict_aux_len :
    ∀ (l acc : List FlowNode),
      (l.foldl pyDictInsertNode acc).length ≤ acc.length + l.length := by
  intro l
  induction l with
  | nil => intro acc; simp
  | cons a rest ih =>
    intro acc
    rw [List.foldl_cons]
    refine (ih _).trans ?_
    unfold pyDictInsertNode
    split
    · simp only [List.length_map, List.length_cons]
      omega
    · simp only [List.length_append, List.length_cons, List.length_nil]
      omega

theorem nodeIds_length_le (s : FlowSchema) : (nodeIds s).length ≤ s.nodes.length := by
  unfold nodeIds nodes_dict
  rw [List.length_map]
  refine (nodes_dict_aux_len _ []).trans ?_
  simp only [List.length_nil, Nat.zero_add]
  exact List.length_filter_le _ _

theorem traceLoop_end_mem (s : FlowSchema) :
    ∀ (fuel : Nat) (proc vis path : List String) (conn : List ConnInfo) (cur : String),
      (∀ x ∈ vis, x ∈ nodeIds s) → vis.Nodup → cur ∉ vis → cur ∉ proc →
      ((nodeIds s).filter (fun i => ¬ vis.contains i)).length + 1 ≤ fuel →
      (traceLoop s fuel proc vis path conn cur).end_type ∈ linearEndTypes := by
  intro fuel
  induction fuel with
  | zero =>
    intro proc vis path conn cur _ _ _ _ hf
    exact absurd hf (Nat.not_succ_le_zero _)
  | succ fuel ih =>
    intro proc vis path conn cur hvm hvn hcv hcp hf
    rw [traceLoop_step s fuel proc vis path conn cur hcp hcv]
    cases hd : claimedDecision s (vis ++ [cur]) (proc ++ [cur]) cur with
    | ends t ea v =>
      rcases claimedDecision_ends_types hd with h | h | h | h | h <;>
        simp [linearEndTypes, h]
    | advance e =>
      obtain ⟨hne, -, hv2, hp2⟩ := claimedDecision_advance hd
      have hcur_mem : cur ∈ nodeIds s := outgoing_ne_nil_mem hne
      apply ih
      · intro x hx
        rcases List.mem_append.mp hx with h | h
        · exact hvm x h
        · rw [List.mem_singleton] at h
          subst h
          exact hcur_mem
      · rw [List.nodup_append]
        exact ⟨hvn, List.nodup_singleton _, by
          intro x hx
          simp only [List.mem_singleton]
          intro hxc
          subst hxc
          exact hcv hx⟩
      · exact hv2
      · exact hp2
      · have := filter_exclude_len vis cur (nodeIds_nodup s) hcur_mem hcv
        omega

theorem linearEndTypes_startsWith {t : String} (h : t ∈ linearEndTypes) :
    pyStartsWith t "linear" = true := by
  fin_cases h <;> decide

theorem traceLoop_delta_ne (s : FlowSchema) (fuel : Nat)
    (proc vis path : List String) (conn : List ConnInfo) (cur : String)
    (h1 : cur ∉ proc) (h2 : cur ∉ vis) (hf : fuel ≠ 0) :
    (traceLoop s fuel proc vis path conn cur).path ≠ path := by
  cases fuel with
  | zero => exact absurd rfl hf
  | succ fuel =>
    rw [traceLoop_step s fuel proc vis path conn cur h1 h2]
    cases hd : claimedDecision s (vis ++ [cur]) (proc ++ [cur]) cur with
    | ends t ea v =>
      simp only
      intro hcontra
      have hlen := congrArg List.length hcontra
      simp only [List.length_append, List.length_cons, List.length_nil] at hlen
      omega
    | advance e =>
      obtain ⟨-, -, hv2, hp2⟩ := claimedDecision_advance hd
      obtain ⟨Δ, -, hpath, -, -⟩ := traceLoop_delta s fuel (proc ++ [cur]) (vis ++ [cur])
        (path ++ [cur]) (conn ++ [⟨cur, e.to_node, e.from_interface, e.to_interface⟩])
        e.to_node hp2 hv2
      simp only
      rw [hpath]
      intro hcontra
      have hlen := congrArg List.length hcontra
      simp only [List.length_append, List.length_cons, List.length_nil] at hlen
      omega

theorem trace_linear_cons_skip (s : FlowSchema) (st : String) (rest proc : List String)
    (counter : Nat) (h : proc.contains st = true) :
    trace_linear s (st :: rest) proc counter = trace_linear s rest proc counter := by
  simp only [trace_linear]
  rw [if_pos h]

theorem trace_linear_cons_store (s : FlowSchema) (st : String) (rest proc : List String)
    (counter : Nat) (h : ¬ proc.contains st = true)
    (h2 : pyStartsWith (traceLoop s (traceFuel s) proc [] [] [] st).end_type "linear" = true) :
    trace_linear s (st :: rest) proc counter =
      ((⟨(traceLoop s (traceFuel s) proc [] [] [] st).path,
         (traceLoop s (traceFuel s) proc [] [] [] st).connection_info,
         (traceLoop s (traceFuel s) proc [] [] [] st).end_type,
         counter, counter,
         (traceLoop s (traceFuel s) proc [] [] [] st).ends_at_junction,
         (traceLoop s (traceFuel s) proc [] [] [] st).via_interface⟩ : PathInfo) ::
        (trace_linear s rest
          (traceLoop s (traceFuel s) proc [] [] [] st).processed (counter + 1)).1,
       (trace_linear s rest
          (traceLoop s (traceFuel s) proc [] [] [] st).processed (counter + 1)).2) := by
  simp only [trace_linear]
  rw [if_neg h]
  rw [if_pos h2]

theorem trace_linear_spec (s : FlowSchema) :
    ∀ (starts proc : List String) (counter : Nat),
      ∃ Δ : List String,
        (trace_linear s starts proc counter).2 = proc ++ Δ ∧
        Δ.Nodup ∧ (∀ x ∈ Δ, x ∉ proc) ∧
        ((trace_linear s starts proc counter).1.map (fun p => p.path)).flatten = Δ ∧
        (∀ p ∈ (trace_linear s starts proc counter).1,
          p.ptype ∈ linearEndTypes ∧ p.path ≠ []) := by
  intro starts
  induction starts with
  | nil =>
    intro proc counter
    exact ⟨[], by simp [trace_linear], List.nodup_nil, by simp,
      by simp [trace_linear], by simp [trace_linear]⟩
  | cons st rest ih =>
    intro proc counter
    by_cases hst : proc.contains st = true
    · rw [trace_linear_cons_skip s st rest proc counter hst]
      exact ih proc counter
    · have hstm : st ∉ proc := fun hm => hst (containsStr_iff.mpr hm)
      have hend : (traceLoop s (traceFuel s) proc [] [] [] st).end_type ∈
          linearEndTypes := by
        apply traceLoop_end_mem
        · intro x hx; cases hx
        · exact List.nodup_nil
        · simp
        · exact hstm
        · have hfil : ((nodeIds s).filter
              (fun i => ¬ ([] : List String).contains i)).length = (nodeIds s).length := by
            simp
          rw [hfil]
          have := nodeIds_length_le s
          unfold traceFuel
          omega
      have hsw := linearEndTypes_startsWith hend
      obtain ⟨Δ0, hp0, hpath0, hnd0, hdis0⟩ :=
        traceLoop_delta s (traceFuel s) proc [] [] [] st hstm (by simp)
      have hne0 : (traceLoop s (traceFuel s) proc [] [] [] st).path ≠ [] := by
        have := traceLoop_delta_ne s (traceFuel s) proc [] [] [] st hstm (by simp)
          (by unfold traceFuel; omega)
        simpa using this
      simp only [List.nil_append] at hpath0
      obtain ⟨Δ1, hp1, hnd1, hdis1, hjoin1, htypes1⟩ :=
        ih (traceLoop s (traceFuel s) proc [] [] [] st).processed (counter + 1)
      rw [trace_linear_cons_store s st rest proc counter hst hsw]
      refine ⟨Δ0 ++ Δ1, ?_, ?_, ?_, ?_, ?_⟩
      · simp only
        rw [hp1, hp0, List.append_assoc]
      · rw [List.nodup_append]
        refine ⟨hnd0, hnd1, ?_⟩
        intro x hx0 hx1
        exact hdis1 x hx1 (by rw [hp0]; exact List.mem_append_right _ hx0)
      · intro x hx
        rcases List.mem_append.mp hx with h | h
        · exact hdis0 x h
        · intro hxp
          exact hdis1 x h (by rw [hp0]; exact List.mem_append_left _ hxp)
      · simp only [List.map_cons, List.flatten_cons]
        rw [hjoin1, hpath0]
      · intro p hp
        rcases List.mem_cons.mp hp with h | h
        · subst h
          exact ⟨hend, hne0⟩
        · exact htypes1 p h

theorem nodes_dict_unique {s : FlowSchema} {n m : FlowNode}
    (hn : n ∈ nodes_dict s) (hm : m ∈ nodes_dict s) (h : n.id = m.id) : n = m :=
  List.inj_on_of_nodup_map (nodeIds_nodup s) hn hm h

theorem mem_merge_points_iff {s : FlowSchema} {j : String} :
    j ∈ merge_points s ↔ ∃ n ∈ nodes_dict s, n.id = j ∧
      (incoming_connections s j).length > 1 ∧ n.type ≠ "Section" := by
  unfold merge_points
  simp only [List.mem_map, List.mem_filter, Bool.and_eq_true, decide_eq_true_eq]
  constructor
  · rintro ⟨n, ⟨hn, hlen, hty⟩, hid⟩
    exact ⟨n, hn, hid, by rw [← hid]; exact hlen, hty⟩
  · rintro ⟨n, hn, hid, hlen, hty⟩
    exact ⟨n, ⟨hn, by rw [hid]; exact hlen, hty⟩, hid⟩

theorem mem_branch_points_iff {s : FlowSchema} {j : String} :
    j ∈ branch_points s ↔ ∃ n ∈ nodes_dict s, n.id = j ∧
      (outgoing_connections s j).length > 1 ∧ n.type ≠ "Section" := by
  unfold branch_points
  simp only [List.mem_map, List.mem_filter, Bool.and_eq_true, decide_eq_true_eq]
  constructor
  · rintro ⟨n, ⟨hn, hlen, hty⟩, hid⟩
    exact ⟨n, hn, hid, by rw [← hid]; exact hlen, hty⟩
  · rintro ⟨n, hn, hid, hlen, hty⟩
    exact ⟨n, ⟨hn, by rw [hid]; exact hlen, hty⟩, hid⟩

theorem mem_section_nodes_iff {s : FlowSchema} {j : String} :
    j ∈ section_nodes s ↔ ∃ n ∈ nodes_dict s, n.id = j ∧ n.type = "Section" := by
  unfold section_nodes
  simp only [List.mem_map, List.mem_filter, decide_eq_true_eq]
  constructor
  · rintro ⟨n, ⟨hn, hty⟩, hid⟩
    exact ⟨n, hn, hid, hty⟩
  · rintro ⟨n, hn, hid, hty⟩
    exact ⟨n, ⟨hn, hty⟩, hid⟩

theorem merge_points_nodup (s : FlowSchema) : (merge_points s).Nodup := by
  unfold merge_points
  have h : List.Sublist (((nodes_dict s).filter (fun n =>
      (incoming_connections s n.id).length > 1 && n.type ≠ "Section")).map
        (fun n => n.id)) ((nodes_dict s).map (fun n => n.id)) :=
    (List.filter_sublist _).map _
  exact List.Nodup.sublist h (nodeIds_nodup s)

theorem branch_points_nodup (s : FlowSchema) : (branch_points s).Nodup := by
  unfold branch_points
  have h : List.Sublist (((nodes_dict s).filter (fun n =>
      (outgoing_connections s n.id).length > 1 && n.type ≠ "Section")).map
        (fun n => n.id)) ((nodes_dict s).map (fun n => n.id)) :=
    (List.filter_sublist _).map _
  exact List.Nodup.sublist h (nodeIds_nodup s)

theorem junction_nodes_nodup (s : FlowSchema) : (junction_nodes s).Nodup := by
  unfold junction_nodes
  rw [List.nodup_append]
  refine ⟨merge_points_nodup s,
    List.Nodup.sublist (List.filter_sublist _) (branch_points_nodup s), ?_⟩
  intro x hx
  intro hmem
  rw [List.mem_filter] at hmem
  have := hmem.2
  simp only [decide_eq_true_eq] at this
  exact this (containsStr_iff.mpr hx)

theorem junction_not_section {s : FlowSchema} {j : String}
    (hj : j ∈ junction_nodes s) : j ∉ section_nodes s := by
  intro hsec
  obtain ⟨m, hm, hmid, hmty⟩ := mem_section_nodes_iff.mp hsec
  unfold junction_nodes at hj
  rcases List.mem_append.mp hj with h | h
  · obtain ⟨n, hn, hnid, -, hnty⟩ := mem_merge_points_iff.mp h
    exact hnty (by rw [nodes_dict_unique hn hm (by rw [hnid, hmid])]; exact hmty)
  · rw [List.mem_filter] at h
    obtain ⟨n, hn, hnid, -, hnty⟩ := mem_branch_points_iff.mp h.1
    exact hnty (by rw [nodes_dict_unique hn hm (by rw [hnid, hmid])]; exact hmty)

theorem processedAfterJunctions_eq (s : FlowSchema) :
    processedAfterJunctions s = junction_nodes s := by
  unfold processedAfterJunctions
  rw [List.filter_eq_self]
  intro j hj
  simp only [decide_eq_true_eq]
  intro hc
  exact junction_not_section hj (containsStr_iff.mp hc)

theorem enum_map_snd_fun {α β : Type} (l : List α) (g : α → β) :
    l.enum.map (fun pr => g pr.2) = l.map g := by
  have h := List.enum_map_snd l
  calc l.enum.map (fun pr => g pr.2) = (l.enum.map Prod.snd).map g := by
        rw [List.map_map]; rfl
    _ = l.map g := by rw [h]

theorem final_map_invariant {α : Type} (s : FlowSchema) (st : List String)
    (f : PathInfo → α) (hf : ∀ x n, f { x with pid := n } = f x) :
    (final_paths_with s st).map f = (sorted_complete_paths_with s st).map f := by
  unfold final_paths_with
  rw [List.map_map, ← enum_map_snd_fun (sorted_complete_paths_with s st) f]
  apply List.map_congr_left
  intro pr _
  exact hf pr.2 (pr.1 + 1)

theorem final_perm_complete_map {α : Type} (s : FlowSchema) (st : List String)
    (f : PathInfo → α) (hf : ∀ x n, f { x with pid := n } = f x) :
    ((final_paths_with s st).map f).Perm ((complete_paths_with s st).map f) := by
  rw [final_map_invariant s st f hf]
  exact (pySorted_perm _ _).map f

theorem singleton_count_sum (l : List String) (nid : String) :
    (l.map (fun j => ([j] : List String).count nid)).sum = l.count nid := by
  induction l with
  | nil => simp
  | cons a rest ih =>
    rw [List.map_cons, List.sum_cons, ih]
    simp only [List.count_cons, List.count_nil]
    cases h : (a == nid) <;> simp [h] <;> omega

theorem flatten_count_sum (L : List (List String)) (nid : String) :
    (L.map (fun x => x.count nid)).sum = L.flatten.count nid := by
  induction L with
  | nil => simp
  | cons a rest ih => simp [List.count_append, ih]

theorem thread_count_decomp (s : FlowSchema) (st : List String) (nid : String) :
    ∃ Δ : List String,
      thread_count_with s st nid =
        (processedAfterJunctions s).count nid + Δ.count nid ∧
      Δ.Nodup ∧ (∀ x ∈ Δ, x ∉ processedAfterJunctions s) := by
  obtain ⟨Δ, hΔeq, hΔnd, hΔdis, hΔflat, -⟩ :=
    trace_linear_spec s st (processedAfterJunctions s)
      ((processedAfterJunctions s).length + 1)
  refine ⟨Δ, ?_, hΔnd, hΔdis⟩
  unfold thread_count_with
  rw [(final_perm_complete_map s st (fun p => p.path.count nid)
    (fun x n => rfl)).sum_eq]
  unfold complete_paths_with
  rw [List.map_append, List.sum_append]
  congr 1
  · have h1 : (initial_junction_paths s).map (fun p => p.path.count nid) =
        (processedAfterJunctions s).map (fun j => ([j] : List String).count nid) := by
      unfold initial_junction_paths
      rw [List.map_map]
      exact enum_map_snd_fun (processedAfterJunctions s)
        (fun j => ([j] : List String).count nid)
    rw [h1, singleton_count_sum]
  · have h2 : (finished_linear_paths s st).map (fun p => p.path.count nid) =
        ((finished_linear_paths s st).map (fun p => p.path)).map
          (fun x => x.count nid) := by
      rw [List.map_map]
      rfl
    rw [h2, flatten_count_sum]
    unfold finished_linear_paths
    rw [hΔflat]

theorem thread_count_le_one (s : FlowSchema) (st : List String) (nid : String) :
    thread_count_with s st nid ≤ 1 := by
  obtain ⟨Δ, heq, hnd, hdis⟩ := thread_count_decomp s st nid
  rw [heq]
  have hpa : (processedAfterJunctions s).count nid ≤ 1 := by
    rw [processedAfterJunctions_eq]
    exact List.nodup_iff_count_le_one.mp (junction_nodes_nodup s) nid
  have hΔ : Δ.count nid ≤ 1 := List.nodup_iff_count_le_one.mp hnd nid
  by_cases hmem : nid ∈ processedAfterJunctions s
  · have : Δ.count nid = 0 := by
      rw [List.count_eq_zero]
      intro hc
      exact hdis nid hc hmem
    omega
  · have : (processedAfterJunctions s).count nid = 0 := by
      rw [List.count_eq_zero]
      exact hmem
    omega

theorem thread_count_junction (s : FlowSchema) (st : List String) {j : String}
    (hj : j ∈ junction_nodes s) : thread_count_with s st j = 1 := by
  obtain ⟨Δ, heq, hnd, hdis⟩ := thread_count_decomp s st j
  rw [heq]
  have hmem : j ∈ processedAfterJunctions s := by
    rw [processedAfterJunctions_eq]; exact hj
  have h1 : (processedAfterJunctions s).count j ≤ 1 := by
    rw [processedAfterJunctions_eq]
    exact List.nodup_iff_count_le_one.mp (junction_nodes_nodup s) j
  have h2 : 0 < (processedAfterJunctions s).count j := List.count_pos_iff.mpr hmem
  have h3 : Δ.count j = 0 := by
    rw [List.count_eq_zero]
    intro hc
    exact hdis j hc hmem
  omega

theorem snd_mem_of_mem_enum {α : Type} {l : List α} {pr : Nat × α}
    (h : pr ∈ l.enum) : pr.2 ∈ l := by
  have h2 : pr.2 ∈ l.enum.map Prod.snd := List.mem_map_of_mem _ h
  rwa [List.enum_map_snd] at h2

theorem mem_junction_nodes_iff {s : FlowSchema} {j : String} :
    j ∈ junction_nodes s ↔ j ∈ merge_points s ∨ j ∈ branch_points s := by
  unfold junction_nodes
  rw [List.mem_append]
  constructor
  · rintro (h | h)
    · exact Or.inl h
    · exact Or.inr (List.mem_filter.mp h).1
  · rintro (h | h)
    · exact Or.inl h
    · by_cases hm : j ∈ merge_points s
      · exact Or.inl hm
      · refine Or.inr (List.mem_filter.mpr ⟨h, ?_⟩)
        simp only [decide_eq_true_eq]
        intro hc
        exact hm (containsStr_iff.mp hc)

theorem mem_final_to_complete {s : FlowSchema} {st : List String} {q : PathInfo}
    (hq : q ∈ final_paths_with s st) :
    ∃ x ∈ complete_paths_with s st, x.path = q.path ∧ x.ptype = q.ptype := by
  have hperm := final_perm_complete_map s st (fun p => (p.path, p.ptype)) (fun x n => rfl)
  have hmem : (q.path, q.ptype) ∈ (complete_paths_with s st).map
      (fun p => (p.path, p.ptype)) :=
    hperm.mem_iff.mp (List.mem_map_of_mem _ hq)
  obtain ⟨x, hx, hpair⟩ := List.mem_map.mp hmem
  exact ⟨x, hx, congrArg Prod.fst hpair, congrArg Prod.snd hpair⟩

theorem mem_complete_to_final {s : FlowSchema} {st : List String} {x : PathInfo}
    (hx : x ∈ complete_paths_with s st) :
    ∃ q ∈ final_paths_with s st, q.path = x.path ∧ q.ptype = x.ptype := by
  have hperm := final_perm_complete_map s st (fun p => (p.path, p.ptype)) (fun y n => rfl)
  have hmem : (x.path, x.ptype) ∈ (final_paths_with s st).map
      (fun p => (p.path, p.ptype)) :=
    hperm.mem_iff.mpr (List.mem_map_of_mem _ hx)
  obtain ⟨q, hq, hpair⟩ := List.mem_map.mp hmem
  exact ⟨q, hq, congrArg Prod.fst hpair, congrArg Prod.snd hpair⟩

theorem junction_singleton_in_final (s : FlowSchema) (st : List String) {j : String}
    (hj : j ∈ junction_nodes s) :
    ∃ q ∈ final_paths_with s st, q.path = [j] ∧ q.ptype = junctionTag s j := by
  have hpa : j ∈ processedAfterJunctions s := by
    rw [processedAfterJunctions_eq]; exact hj
  rw [← List.enum_map_snd (processedAfterJunctions s)] at hpa
  obtain ⟨pr, hpr, hsnd⟩ := List.mem_map.mp hpa
  have hx : (⟨[pr.2], [], junctionTag s pr.2, pr.1 + 1, pr.1 + 1, none, none⟩ : PathInfo) ∈
      initial_junction_paths s := List.mem_map_of_mem _ hpr
  have hxc : (⟨[pr.2], [], junctionTag s pr.2, pr.1 + 1, pr.1 + 1, none, none⟩ : PathInfo) ∈
      complete_paths_with s st := List.mem_append_left _ hx
  obtain ⟨q, hq, hqp, hqt⟩ := mem_complete_to_final hxc
  subst hsnd
  exact ⟨q, hq, hqp, hqt⟩

theorem linear_path_nodes_not_junction (s : FlowSchema) (st : List String)
    {p : PathInfo} (hp : p ∈ finished_linear_paths s st) {n : String}
    (hn : n ∈ p.path) : n ∉ junction_nodes s := by
  obtain ⟨Δ, -, -, hdis, hflat, -⟩ :=
    trace_linear_spec s st (processedAfterJunctions s)
      ((processedAfterJunctions s).length + 1)
  have hmem : n ∈ Δ := by
    rw [← hflat]
    rw [List.mem_flatten]
    exact ⟨p.path, List.mem_map_of_mem _ hp, hn⟩
  intro hj
  exact hdis n hmem (by rw [processedAfterJunctions_eq]; exact hj)

theorem junctionTag_not_linear (s : FlowSchema) (j : String) :
    pyStartsWith (junctionTag s j) "linear" = false := by
  unfold junctionTag
  split_ifs <;> decide

theorem outgoing_eq_nil_of_not_mem {s : FlowSchema} {n : String}
    (h : n ∉ nodeIds s) : outgoing_connections s n = [] := by
  unfold outgoing_connections
  rw [if_neg]
  intro hc
  exact h (containsStr_iff.mp hc)

theorem incoming_eq_nil_of_not_mem {s : FlowSchema} {n : String}
    (h : n ∉ nodeIds s) : incoming_connections s n = [] := by
  unfold incoming_connections
  rw [if_neg]
  intro hc
  exact h (containsStr_iff.mp hc)

theorem degree_le_one_of_not_junction (s : FlowSchema) {n : String}
    (hnj : n ∉ junction_nodes s) (hns : n ∉ section_nodes s) :
    (outgoing_connections s n).length ≤ 1 ∧ (incoming_connections s n).length ≤ 1 := by
  by_cases hmem : n ∈ nodeIds s
  · obtain ⟨nn, hnn, hnnid⟩ := List.mem_map.mp hmem
    have hty : nn.type ≠ "Section" := by
      intro hty
      exact hns (mem_section_nodes_iff.mpr ⟨nn, hnn, hnnid, hty⟩)
    constructor
    · by_contra h
      push_neg at h
      exact hnj (mem_junction_nodes_iff.mpr (Or.inr
        (mem_branch_points_iff.mpr ⟨nn, hnn, hnnid, h, hty⟩)))
    · by_contra h
      push_neg at h
      exact hnj (mem_junction_nodes_iff.mpr (Or.inl
        (mem_merge_points_iff.mpr ⟨nn, hnn, hnnid, h, hty⟩)))
  · rw [outgoing_eq_nil_of_not_mem hmem, incoming_eq_nil_of_not_mem hmem]
    simp

theorem linear_final_path_nodes (s : FlowSchema) (st : List String)
    {p : PathInfo} (hp : p ∈ final_paths_with s st)
    (hlin : pyStartsWith p.ptype "linear" = true) {n : String} (hn : n ∈ p.path)
    (hns : n ∉ section_nodes s) :
    (outgoing_connections s n).length ≤ 1 ∧ (incoming_connections s n).length ≤ 1 := by
  obtain ⟨x, hx, hxp, hxt⟩ := mem_final_to_complete hp
  rcases List.mem_append.mp hx with hxi | hxl
  · obtain ⟨pr, hpr, hxeq⟩ := List.mem_map.mp hxi
    have : pyStartsWith x.ptype "linear" = false := by
      rw [← hxeq]
      exact junctionTag_not_linear s pr.2
    rw [hxt] at this
    rw [this] at hlin
    cases hlin
  · refine degree_le_one_of_not_junction s ?_ hns
    exact linear_path_nodes_not_junction s st hxl (by rw [hxp]; exact hn)

theorem enum_map_fst_succ {α : Type} (l : List α) :
    l.enum.map (fun pr => pr.1 + 1) = (List.range l.length).map (fun i => i + 1) := by
  calc l.enum.map (fun pr => pr.1 + 1) = (l.enum.map Prod.fst).map (fun i => i + 1) := by
        rw [List.map_map]; rfl
    _ = (List.range l.length).map (fun i => i + 1) := by rw [List.enum_map_fst]

theorem enum_map_fst_succ_nodup {α : Type} (l : List α) :
    (l.enum.map (fun pr => pr.1 + 1)).Nodup := by
  rw [enum_map_fst_succ]
  exact (List.nodup_range _).map (fun a b => by omega)

theorem final_pids_nodup (s : FlowSchema) (st : List String) :
    ((final_paths_with s st).map (fun p => p.pid)).Nodup := by
  unfold final_paths_with
  rw [List.map_map]
  exact enum_map_fst_succ_nodup _

theorem final_pid_unique {s : FlowSchema} {st : List String} {q r : PathInfo}
    (hq : q ∈ final_paths_with s st) (hr : r ∈ final_paths_with s st)
    (h : q.pid = r.pid) : q = r :=
  List.inj_on_of_nodup_map (final_pids_nodup s st) hq hr h

theorem trace_linear_temp_ids (s : FlowSchema) :
    ∀ (starts proc : List String) (counter : Nat),
      (∀ p ∈ (trace_linear s starts proc counter).1, counter ≤ p.temp_id) ∧
      ((trace_linear s starts proc counter).1.map (fun p => p.temp_id)).Nodup := by
  intro starts
  induction starts with
  | nil =>
    intro proc counter
    constructor
    · intro p hp
      simp [trace_linear] at hp
    · simp [trace_linear]
  | cons st rest ih =>
    intro proc counter
    by_cases hst : proc.contains st = true
    · rw [trace_linear_cons_skip s st rest proc counter hst]
      exact ih proc counter
    · by_cases hsw : pyStartsWith
          (traceLoop s (traceFuel s) proc [] [] [] st).end_type "linear" = true
      · rw [trace_linear_cons_store s st rest proc counter hst hsw]
        obtain ⟨ihle, ihnd⟩ := ih
          (traceLoop s (traceFuel s) proc [] [] [] st).processed (counter + 1)
        constructor
        · intro p hp
          rcases List.mem_cons.mp hp with h | h
          · subst h; exact Nat.le_refl _
          · exact Nat.le_of_succ_le (ihle p h)
        · simp only [List.map_cons]
          rw [List.nodup_cons]
          refine ⟨?_, ihnd⟩
          intro hmem
          obtain ⟨p, hp, hpe⟩ := List.mem_map.mp hmem
          have := ihle p hp
          omega
      · have hred : trace_linear s (st :: rest) proc counter =
            trace_linear s rest
              (traceLoop s (traceFuel s) proc [] [] [] st).processed counter := by
          simp only [trace_linear]
          rw [if_neg hst, if_neg hsw]
        rw [hred]
        exact ih _ counter

theorem initial_junction_temp_ids (s : FlowSchema) :
    ∀ p ∈ initial_junction_paths s,
      1 ≤ p.temp_id ∧ p.temp_id ≤ (processedAfterJunctions s).length := by
  intro p hp
  obtain ⟨pr, hpr, hpe⟩ := List.mem_map.mp hp
  subst hpe
  simp only
  have hlt : pr.1 < (processedAfterJunctions s).length := by
    have : pr.1 ∈ (processedAfterJunctions s).enum.map Prod.fst :=
      List.mem_map_of_mem _ hpr
    rw [List.enum_map_fst] at this
    exact List.mem_range.mp this
  omega

theorem initial_junction_temps_nodup (s : FlowSchema) :
    ((initial_junction_paths s).map (fun p => p.temp_id)).Nodup := by
  unfold initial_junction_paths
  rw [List.map_map]
  exact enum_map_fst_succ_nodup _

theorem complete_temp_ids_nodup (s : FlowSchema) (st : List String) :
    ((complete_paths_with s st).map (fun p => p.temp_id)).Nodup := by
  unfold complete_paths_with
  rw [List.map_append, List.nodup_append]
  obtain ⟨hle, hnd⟩ := trace_linear_temp_ids s st (processedAfterJunctions s)
    ((processedAfterJunctions s).length + 1)
  refine ⟨initial_junction_temps_nodup s, hnd, ?_⟩
  intro t ht htl
  obtain ⟨p, hp, hpe⟩ := List.mem_map.mp ht
  obtain ⟨q, hq, hqe⟩ := List.mem_map.mp htl
  have h1 := (initial_junction_temp_ids s p hp).2
  have h2 := hle q hq
  unfold finished_linear_paths at *
  omega

theorem complete_temp_unique {s : FlowSchema} {st : List String} {q r : PathInfo}
    (hq : q ∈ complete_paths_with s st) (hr : r ∈ complete_paths_with s st)
    (h : q.temp_id = r.temp_id) : q = r :=
  List.inj_on_of_nodup_map (complete_temp_ids_nodup s st) hq hr h

theorem foldl_extract {α β : Type} (δ : α → List β) (f : List β → α → List β)
    (hf : ∀ acc x, f acc x = acc ++ δ x) :
    ∀ (l : List α) (acc : List β), l.foldl f acc = acc ++ (l.map δ).flatten := by
  intro l
  induction l with
  | nil => intro acc; simp
  | cons a rest ih =>
    intro acc
    rw [List.foldl_cons, hf, ih, List.map_cons, List.flatten_cons, List.append_assoc]

theorem links_6a_eq (s : FlowSchema) (starts : List String) :
    links_6a s starts = ((finished_linear_paths s starts).map (delta_6a s starts)).flatten := by
  unfold links_6a
  rw [foldl_extract (delta_6a s starts)]
  · rw [List.nil_append]
  · intro acc x
    unfold delta_6a
    cases h1 : final_path_id_map s starts x.temp_id with
    | none => simp
    | some cpid =>
      simp only
      split_ifs with h2
      · cases h3 : x.ends_at_junction with
        | none => simp
        | some nj =>
          simp only
          cases h4 : junction_path_final_map s starts nj with
          | none => simp
          | some jp => simp
      · simp

theorem links_6a_keys (s : FlowSchema) (starts : List String) :
    ∀ pr ∈ links_6a s starts, ∃ lp ∈ finished_linear_paths s starts,
      (lp.ptype = "linear_to_junction" ∨ lp.ptype = "linear_to_branch") ∧
      final_path_id_map s starts lp.temp_id = some pr.1 := by
  intro pr hpr
  rw [links_6a_eq] at hpr
  rw [List.mem_flatten] at hpr
  obtain ⟨dl, hdl, hmem⟩ := hpr
  obtain ⟨lp, hlp, hde⟩ := List.mem_map.mp hdl
  subst hde
  refine ⟨lp, hlp, ?_⟩
  unfold delta_6a at hmem
  cases h1 : final_path_id_map s starts lp.temp_id with
  | none => rw [h1] at hmem; cases hmem
  | some cpid =>
    rw [h1] at hmem
    simp only at hmem
    split_ifs at hmem with h2
    · cases h3 : lp.ends_at_junction with
      | none => rw [h3] at hmem; cases hmem
      | some nj =>
        rw [h3] at hmem
        simp only at hmem
        cases h4 : junction_path_final_map s starts nj with
        | none => rw [h4] at hmem; cases hmem
        | some jp =>
          rw [h4] at hmem
          rw [List.mem_singleton] at hmem
          subst hmem
          simp only [Bool.or_eq_true, decide_eq_true_eq] at h2
          exact ⟨h2, rfl⟩
    · cases hmem

theorem links_6b_dict_eq (s : FlowSchema) (starts : List String) :
    links_6b_dict s starts =
      (((final_paths_with s starts).filter (fun p =>
          isJunctionType p.ptype && ¬ p.path.isEmpty)).map (fun jp =>
        ((outgoing_connections s (jp.path.headD "")).map
          (delta_6b_conn s starts jp)).flatten)).flatten := by
  unfold links_6b_dict
  rw [foldl_extract (fun jp =>
    ((outgoing_connections s (jp.path.headD "")).map (delta_6b_conn s starts jp)).flatten)]
  · rw [List.nil_append]
  · intro acc jp
    rw [foldl_extract (delta_6b_conn s starts jp)]
    intro acc2 conn
    unfold delta_6b_conn
    cases h1 : junction_path_final_map s starts conn.to_node with
    | some q => simp
    | none =>
      simp only
      cases h2 : linear_path_node_map s starts conn.to_node with
      | some q => simp
      | none => simp

theorem links_6b_dict_keys (s : FlowSchema) (starts : List String) :
    ∀ pr ∈ links_6b_dict s starts, ∃ jp ∈ final_paths_with s starts,
      isJunctionType jp.ptype = true ∧ pr.1 = jp.pid := by
  intro pr hpr
  rw [links_6b_dict_eq] at hpr
  rw [List.mem_flatten] at hpr
  obtain ⟨dl, hdl, hmem⟩ := hpr
  obtain ⟨jp, hjp, hde⟩ := List.mem_map.mp hdl
  subst hde
  rw [List.mem_flatten] at hmem
  obtain ⟨dl2, hdl2, hmem2⟩ := hmem
  obtain ⟨conn, hconn, hde2⟩ := List.mem_map.mp hdl2
  subst hde2
  have hjf := List.mem_filter.mp hjp
  refine ⟨jp, hjf.1, (Bool.and_eq_true _ _ |>.mp hjf.2).1, ?_⟩
  unfold delta_6b_conn at hmem2
  cases h1 : junction_path_final_map s starts conn.to_node with
  | some q =>
    rw [h1] at hmem2
    simp only at hmem2
    rw [List.mem_singleton] at hmem2
    subst hmem2
    rfl
  | none =>
    rw [h1] at hmem2
    simp only at hmem2
    cases h2 : linear_path_node_map s starts conn.to_node with
    | some q =>
      rw [h2] at hmem2
      simp only at hmem2
      rw [List.mem_singleton] at hmem2
      subst hmem2
      rfl
    | none =>
      rw [h2] at hmem2
      cases hmem2

theorem links_6b_text_nil (s : FlowSchema) (starts : List String) :
    links_6b_text s starts = [] := by
  unfold links_6b_text
  generalize ((final_paths_with s starts).filter (fun p =>
    isJunctionType p.ptype && ¬ p.path.isEmpty)) = l
  have haux : ∀ (l2 : List PathInfo) (acc : List (Nat × LinkEntry)),
      l2.foldl (fun acc jp =>
        let jnode := jp.path.headD ""
        let keys := (links_6a s starts).map (fun e => e.1) ++ acc.map (fun e => e.1)
        if keys.any (fun k => pyStrIntEq jnode k) then
          acc ++ links_6b_text_body s starts jnode keys
        else acc) acc = acc := by
    intro l2
    induction l2 with
    | nil => intro acc; rfl
    | cons a rest ih =>
      intro acc
      rw [List.foldl_cons]
      have hany : (((links_6a s starts).map (fun e => e.1) ++
          acc.map (fun e => e.1)).any (fun k => pyStrIntEq (a.path.headD "") k)) = false := by
        simp [pyStrIntEq]
      simp only [hany, Bool.false_eq_true, if_false]
      exact ih acc
  exact haux l []

theorem mem_final_to_complete3 {s : FlowSchema} {st : List String} {q : PathInfo}
    (hq : q ∈ final_paths_with s st) :
    ∃ x ∈ complete_paths_with s st, x.path = q.path ∧ x.ptype = q.ptype ∧
      x.temp_id = q.temp_id := by
  have hperm := final_perm_complete_map s st
    (fun p => (p.path, p.ptype, p.temp_id)) (fun x n => rfl)
  have hmem : (q.path, q.ptype, q.temp_id) ∈ (complete_paths_with s st).map
      (fun p => (p.path, p.ptype, p.temp_id)) :=
    hperm.mem_iff.mp (List.mem_map_of_mem _ hq)
  obtain ⟨x, hx, hpair⟩ := List.mem_map.mp hmem
  refine ⟨x, hx, congrArg (fun t => t.1) hpair, ?_, ?_⟩
  · exact congrArg (fun t => t.2.1) hpair
  · exact congrArg (fun t => t.2.2) hpair

theorem reaches_processed_no_links (s : FlowSchema) (st : List String) {p : PathInfo}
    (hp : p ∈ final_paths_with s st) (ht : p.ptype = "linear_reaches_processed") :
    path_connections_text s st p.pid = [] ∧ path_connections_dict s st p.pid = [] := by
  have h6a : ∀ pr ∈ links_6a s st, ¬ (pr.1 = p.pid) := by
    intro pr hpr heq
    obtain ⟨lp, hlp, htype, hmap⟩ := links_6a_keys s st pr hpr
    unfold final_path_id_map at hmap
    cases hfind : (final_paths_with s st).find? (fun r => r.temp_id = lp.temp_id) with
    | none => rw [hfind] at hmap; cases hmap
    | some q =>
      rw [hfind] at hmap
      have hmap2 : q.pid = pr.1 := by
        simpa using hmap
      have hqmem : q ∈ final_paths_with s st := List.mem_of_find?_eq_some hfind
      have hqtemp : q.temp_id = lp.temp_id := by
        have := List.find?_some hfind
        simpa using this
      have hqp : q = p := final_pid_unique hqmem hp (by rw [hmap2, heq])
      obtain ⟨x, hxc, -, hxt, hxtemp⟩ := mem_final_to_complete3 hp
      have hlpc : lp ∈ complete_paths_with s st := List.mem_append_right _ hlp
      have hxlp : x = lp := complete_temp_unique hxc hlpc (by
        rw [hxtemp, ← hqp, hqtemp])
      rcases htype with h | h
      · rw [← hxlp, hxt, ht] at h
        exact absurd h (by decide)
      · rw [← hxlp, hxt, ht] at h
        exact absurd h (by decide)
  have h6bd : ∀ pr ∈ links_6b_dict s st, ¬ (pr.1 = p.pid) := by
    intro pr hpr heq
    obtain ⟨jp, hjp, hjt, hje⟩ := links_6b_dict_keys s st pr hpr
    have hjpp : jp = p := final_pid_unique hjp hp (by rw [← hje, heq])
    rw [hjpp, ht] at hjt
    cases hjt
  constructor
  · unfold path_connections_text
    rw [links_6b_text_nil, List.append_nil]
    have hfil : (links_6a s st).filter (fun e => e.1 = p.pid) = [] := by
      rw [List.filter_eq_nil_iff]
      intro e he
      simp only [decide_eq_true_eq]
      exact h6a e he
    rw [hfil]
    rfl
  · unfold path_connections_dict
    have hfil : ((links_6a s st ++ links_6b_dict s st).filter
        (fun e => e.1 = p.pid)) = [] := by
      rw [List.filter_eq_nil_iff]
      intro e he
      simp only [decide_eq_true_eq]
      rcases List.mem_append.mp he with h | h
      · exact h6a e h
      · exact h6bd e h
    rw [hfil]
    rfl

/-- C6: the claim as stated is false: in `c6Schema`, connection `c1` has an
empty destination interface and connection `c2` targets a node absent from
the node set, yet both are surfaced in node `A`'s outgoing adjacency (and
hence count toward its outdegree during classification). -/
theorem C6_counterexample : ¬ C6claim c6Schema := by
  unfold C6claim
  decide

/-- C6 (amended): an edge is surfaced in the outgoing adjacency of `nid` iff
`nid` is its present source node, both endpoint ids are truthy and the
source interface is non-empty — the destination's presence and the
destination interface are not checked; symmetrically, an edge is surfaced in
the incoming adjacency of `nid` iff `nid` is its present destination node,
both endpoint ids are truthy and the destination interface is non-empty. -/
theorem C6_adjacency_characterization (s : FlowSchema) (nid : String)
    (e : OutEdge) (f : InEdge) :
    (e ∈ outgoing_connections s nid ↔ nid ∈ nodeIds s ∧ ∃ c ∈ s.connections,
      c.outputNode = nid ∧ c.outputNode ≠ "" ∧ c.inputNode ≠ "" ∧
      c.outputNodeInterface ≠ "" ∧
      e = ⟨c.inputNode, c.outputNodeInterface, c.inputNodeInterface, c.id⟩) ∧
    (f ∈ incoming_connections s nid ↔ nid ∈ nodeIds s ∧ ∃ c ∈ s.connections,
      c.inputNode = nid ∧ c.inputNode ≠ "" ∧ c.outputNode ≠ "" ∧
      c.inputNodeInterface ≠ "" ∧
      f = ⟨c.outputNode, c.inputNodeInterface, c.outputNodeInterface, c.id⟩) := by
  constructor
  · by_cases hmem : nid ∈ nodeIds s
    · unfold outgoing_connections
      rw [if_pos (containsStr_iff.mpr hmem)]
      simp only [List.mem_map, List.mem_filter, Bool.and_eq_true, decide_eq_true_eq]
      constructor
      · rintro ⟨c, ⟨hcm, ⟨⟨h1, h2⟩, h3⟩, h4⟩, he⟩
        exact ⟨hmem, c, hcm, h4, h1, h2, h3, he.symm⟩
      · rintro ⟨-, c, hcm, h4, h1, h2, h3, he⟩
        exact ⟨c, ⟨hcm, ⟨⟨h1, h2⟩, h3⟩, h4⟩, he.symm⟩
    · unfold outgoing_connections
      rw [if_neg (fun hc => hmem (containsStr_iff.mp hc))]
      constructor
      · intro h
        exact absurd h (List.not_mem_nil e)
      · rintro ⟨hm, -⟩
        exact absurd hm hmem
  · by_cases hmem : nid ∈ nodeIds s
    · unfold incoming_connections
      rw [if_pos (containsStr_iff.mpr hmem)]
      simp only [List.mem_map, List.mem_filter, Bool.and_eq_true, decide_eq_true_eq]
      constructor
      · rintro ⟨c, ⟨hcm, ⟨⟨h1, h2⟩, h3⟩, h4⟩, he⟩
        exact ⟨hmem, c, hcm, h4, h1, h2, h3, he.symm⟩
      · rintro ⟨-, c, hcm, h4, h1, h2, h3, he⟩
        exact ⟨c, ⟨hcm, ⟨⟨h1, h2⟩, h3⟩, h4⟩, he.symm⟩
    · unfold incoming_connections
      rw [if_neg (fun hc => hmem (containsStr_iff.mp hc))]
      constructor
      · intro h
        exact absurd h (List.not_mem_nil f)
      · rintro ⟨hm, -⟩
        exact absurd hm hmem

/-- C9: the claim as stated is false: the text entry point returns the plain
string `Error: Invalid JSON provided. <detail>`, not the `{"error": ...}`
value. -/
theorem C9_counterexample : ¬ C9claim := by
  intro h
  have := h.1 "boom"
  exact absurd this (by decide)

/-- C9 (amended): the text entry point returns plain `Error: ...` strings
(invalid JSON, conversion failure, empty node set); the dict entry point
returns `{"error": ...}` objects, with the conversion-failure message reading
`... or parse paths to dict.`.  No result-shape guarantee is stated for a
good non-empty schema: the dict analysis itself can raise (a `TypeError`
sorting the summary tuples of two Sections tying on position, or a
`KeyError` on a traced dangling-edge target), and the entry point's guard
then returns the conversion-failure error object instead of a result. -/
theorem C9_error_surface :
    (∀ d, parse_all_paths_json (.malformed d) =
      "Error: Invalid JSON provided. " ++ d) ∧
    (∀ d, parse_all_paths_json (.convFail d) =
      "Error: Failed to convert JSON to FlowSchema or parse paths. " ++ d) ∧
    (∀ s : FlowSchema, s.nodes = [] →
      parse_all_paths_json (.good s) = "Error: No nodes found in the flow schema.") ∧
    (∀ d, parse_all_paths_dict_json (.malformed d) =
      .errorObj ("Invalid JSON provided. " ++ d)) ∧
    (∀ d, parse_all_paths_dict_json (.convFail d) =
      .errorObj ("Failed to convert JSON to FlowSchema or parse paths to dict. " ++ d)) ∧
    (∀ s : FlowSchema, s.nodes = [] →
      parse_all_paths_dict_json (.good s) =
        .errorObj "No nodes found in the flow schema.") := by
  refine ⟨fun d => rfl, fun d => rfl, ?_, fun d => rfl, fun d => rfl, ?_⟩
  · intro s hs
    simp [parse_all_paths_json, parse_all_paths, hs]
  · intro s hs
    simp [parse_all_paths_dict_json, parse_all_paths_dict, hs]

/-- C9 witness: the amended error surface evaluated at concrete inputs. -/
theorem C9_error_surface_witness :
    parse_all_paths_json (.malformed "boom") = "Error: Invalid JSON provided. boom" ∧
    parse_all_paths_dict_json (.good ⟨[], []⟩) =
      .errorObj "No nodes found in the flow schema." :=
  ⟨C9_error_surface.1 "boom",
   (C9_error_surface.2.2.2.2.2) ⟨[], []⟩ rfl⟩

theorem single_mem_sum {α : Type} (f : α → Nat) :
    ∀ (l : List α) (a : α), a ∈ l → f a ≤ (l.map f).sum := by
  intro l
  induction l with
  | nil => intro a ha; cases ha
  | cons c rest ih =>
    intro a ha
    rw [List.map_cons, List.sum_cons]
    rcases List.mem_cons.mp ha with h | h
    · subst h; omega
    · have := ih a h; omega

theorem two_mem_sum {α : Type} [DecidableEq α] (f : α → Nat) :
    ∀ (l : List α) (a b : α), a ∈ l → b ∈ l → a ≠ b →
      f a + f b ≤ (l.map f).sum := by
  intro l
  induction l with
  | nil => intro a b ha _ _; cases ha
  | cons c rest ih =>
    intro a b ha hb hne
    rw [List.map_cons, List.sum_cons]
    rcases List.mem_cons.mp ha with h1 | h1
    · subst h1
      have hbr : b ∈ rest := by
        rcases List.mem_cons.mp hb with h2 | h2
        · exact absurd h2.symm hne
        · exact h2
      have := single_mem_sum f rest b hbr
      omega
    · rcases List.mem_cons.mp hb with h2 | h2
      · subst h2
        have := single_mem_sum f rest a h1
        omega
      · have := ih a b h1 h2 hne
        omega

theorem junction_thread_eq (s : FlowSchema) (st : List String) {j : String}
    (hj : j ∈ junction_nodes s) :
    (junction_thread s st j).map (fun q => (q.path, q.ptype)) =
      some ([j], junctionTag s j) := by
  obtain ⟨q0, hq0, hq0p, hq0t⟩ := junction_singleton_in_final s st hj
  have hq0c : q0.path.contains j = true := by
    rw [hq0p]
    simp
  have hsome : (junction_thread s st j).isSome := by
    unfold junction_thread
    rw [List.find?_isSome]
    exact ⟨q0, hq0, hq0c⟩
  obtain ⟨q, hq⟩ := Option.isSome_iff_exists.mp hsome
  have hqmem : q ∈ final_paths_with s st := List.mem_of_find?_eq_some hq
  have hqc : j ∈ q.path := by
    have := List.find?_some hq
    simpa [containsStr_iff] using this
  have hqq0 : q = q0 := by
    by_contra hne
    have h2 : q.path.count j + q0.path.count j ≤
        ((final_paths_with s st).map (fun p => p.path.count j)).sum :=
      two_mem_sum (fun p => p.path.count j) (final_paths_with s st) q q0 hqmem hq0 hne
    have hc1 : 1 ≤ q.path.count j := List.count_pos_iff.mpr hqc
    have hc2 : 1 ≤ q0.path.count j := by
      rw [hq0p]
      simp
    have hle := thread_count_le_one s st j
    unfold thread_count_with at hle
    omega
  rw [hq]
  show some (q.path, q.ptype) = some ([j], junctionTag s j)
  rw [hqq0, hq0p, hq0t]

/-- C1: the claim as stated is false on `c1Schema`: the Section node `S` is
threaded (inside the linear thread `[D, S]`) and the cycle nodes `A`, `B`
are threaded nowhere — there is no leftover sweep over unprocessed nodes. -/
theorem C1_counterexample : ¬ C1claim c1Schema := by
  unfold C1claim
  decide

/-- C1 (amended): in both partitioning variants, every node id appears in the
node lists of all Step Threads at most once in total, and every junction
node appears exactly once; Section nodes reached mid-trace and unreachable
cycle nodes are not covered by the as-stated claim. -/
theorem C1_coverage_amended (s : FlowSchema) (nid j : String)
    (hj : j ∈ junction_nodes s) :
    thread_count_with s (ordered_linear_starts_text s) nid ≤ 1 ∧
    thread_count_with s (ordered_linear_starts_dict s) nid ≤ 1 ∧
    thread_count_with s (ordered_linear_starts_text s) j = 1 ∧
    thread_count_with s (ordered_linear_starts_dict s) j = 1 :=
  ⟨thread_count_le_one s _ nid, thread_count_le_one s _ nid,
   thread_count_junction s _ hj, thread_count_junction s _ hj⟩

/-- C1 witness: the amended coverage at the branch schema. -/
theorem C1_coverage_amended_witness :
    thread_count_with c1WitnessSchema (ordered_linear_starts_dict c1WitnessSchema) "A" = 1 ∧
    thread_count_with c1WitnessSchema (ordered_linear_starts_text c1WitnessSchema) "B" ≤ 1 :=
  ⟨(C1_coverage_amended c1WitnessSchema "B" "A" (by decide)).2.2.2,
   (C1_coverage_amended c1WitnessSchema "B" "A" (by decide)).1⟩

/-- C2: the claim's `linear_reaches_processed` parenthetical is false on
`c2Schema`: thread `[B]` ends `linear_reaches_processed` at `C` but no
forward link is recorded for it (step 6a links only `linear_to_junction` and
`linear_to_branch` threads). -/
theorem C2_counterexample : ¬ C2claim c2Schema := by
  unfold C2claim
  decide

/-- C2 (amended): one loop iteration applies exactly the claimed priority
order — outdegree 0 → `linear_endpoint`; outdegree > 1 on a non-Section →
`linear_to_branch`; designated successor a junction → `linear_to_junction`
with the departure interface; successor visited in this trace →
`linear_cycle` without re-adding it; successor already processed →
`linear_reaches_processed` (the reached node is remembered in
`ends_at_junction` but no forward link is ever recorded for such a thread);
otherwise the trace advances. -/
theorem C2_termination_priority (s : FlowSchema) (fuel : Nat)
    (proc vis path : List String) (conn : List ConnInfo) (cur : String)
    (st : List String) (p : PathInfo)
    (h1 : cur ∉ proc) (h2 : cur ∉ vis)
    (hp : p ∈ final_paths_with s st) (ht : p.ptype = "linear_reaches_processed") :
    (traceLoop s (fuel + 1) proc vis path conn cur =
      match claimedDecision s (vis ++ [cur]) (proc ++ [cur]) cur with
      | .ends t ea v => ⟨path ++ [cur], conn, t, ea, v, proc ++ [cur]⟩
      | .advance e =>
        traceLoop s fuel (proc ++ [cur]) (vis ++ [cur]) (path ++ [cur])
          (conn ++ [⟨cur, e.to_node, e.from_interface, e.to_interface⟩]) e.to_node) ∧
    path_connections_text s st p.pid = [] ∧
    path_connections_dict s st p.pid = [] :=
  ⟨traceLoop_step s fuel proc vis path conn cur h1 h2,
   (reaches_processed_no_links s st hp ht).1,
   (reaches_processed_no_links s st hp ht).2⟩

/-- C2 witness: the reached-processed thread of `c2Schema` has no links. -/
theorem C2_termination_priority_witness :
    path_connections_dict c2Schema (ordered_linear_starts_dict c2Schema) 2 = [] :=
  (C2_termination_priority c2Schema 5 [] [] [] [] "A"
    (ordered_linear_starts_dict c2Schema)
    ⟨["B"], [], "linear_reaches_processed", 2, 2, some "C", none⟩
    (by decide) (by decide) (by decide) rfl).2.2

/-- C3: the claim as stated is false on `c3Schema`: the linear thread
`[D, S]` contains the Section node `S`, which has indegree 2 and is not a
root. -/
theorem C3_counterexample : ¬ C3claim c3Schema := by
  unfold C3claim
  decide

/-- C3 (amended): every junction node's thread is its own singleton, tagged
by `junctionTag`, appearing exactly once across all threads; the junction
set is marked processed before linear tracing; and no linear thread contains
a non-Section node with indegree or outdegree above 1 — a Section node with
higher fan-in may however be threaded through mid-trace. -/
theorem C3_junction_isolation (s : FlowSchema) (st : List String) (j : String)
    (p : PathInfo) (nid : String)
    (hj : j ∈ junction_nodes s) (hp : p ∈ final_paths_with s st)
    (hlin : pyStartsWith p.ptype "linear" = true)
    (hn : nid ∈ p.path) (hns : nid ∉ section_nodes s) :
    (junction_thread s st j).map (fun q => (q.path, q.ptype)) =
      some ([j], junctionTag s j) ∧
    thread_count_with s st j = 1 ∧
    processedAfterJunctions s = junction_nodes s ∧
    (outgoing_connections s nid).length ≤ 1 ∧
    (incoming_connections s nid).length ≤ 1 :=
  ⟨junction_thread_eq s st hj, thread_count_junction s st hj,
   processedAfterJunctions_eq s,
   (linear_final_path_nodes s st hp hlin hn hns).1,
   (linear_final_path_nodes s st hp hlin hn hns).2⟩

/-- C3 witness: junction isolation at the branch schema. -/
theorem C3_junction_isolation_witness :
    (junction_thread c1WitnessSchema (ordered_linear_starts_dict c1WitnessSchema) "A").map
      (fun q => (q.path, q.ptype)) =
        some (["A"], junctionTag c1WitnessSchema "A") ∧
    (incoming_connections c1WitnessSchema "B").length ≤ 1 :=
  ⟨(C3_junction_isolation c1WitnessSchema (ordered_linear_starts_dict c1WitnessSchema)
      "A" ⟨["B"], [], "linear_endpoint", 2, 2, none, none⟩ "B"
      (by decide) (by decide) (by decide) (by decide) (by decide)).1,
   (C3_junction_isolation c1WitnessSchema (ordered_linear_starts_dict c1WitnessSchema)
      "A" ⟨["B"], [], "linear_endpoint", 2, 2, none, none⟩ "B"
      (by decide) (by decide) (by decide) (by decide) (by decide)).2.2.2.2⟩

/-- C4: evaluated on `c4Schema` (a branch node `P` feeding `Q` and `R`), the
two functions agree on the Step Threads, node sequences and ids, but the
text report records no `Continues in` links for the junction thread while
the structured output records links to both successor threads — the
renderings are not views of identical link data. -/
theorem C4_view_divergence :
    (final_paths_text c4Schema).map (fun p => (p.pid, p.path, p.ptype)) =
      [(1, ["P"], "branch_node"), (2, ["Q"], "linear_endpoint"),
       (3, ["R"], "linear_endpoint")] ∧
    (final_paths_dict c4Schema).map (fun p => (p.pid, p.path, p.ptype)) =
      [(1, ["P"], "branch_node"), (2, ["Q"], "linear_endpoint"),
       (3, ["R"], "linear_endpoint")] ∧
    path_connections_text c4Schema (ordered_linear_starts_text c4Schema) 1 = [] ∧
    path_connections_dict c4Schema (ordered_linear_starts_dict c4Schema) 1 =
      [⟨2, "o1"⟩, ⟨3, "o2"⟩] := by
  refine ⟨by decide, by decide, rfl, rfl⟩

/-- C5: evaluated on Scenario B (`c5Schema`), thread `A = [A]` is a
`branch_node` and `B`, `C` are `linear_endpoint` threads as claimed, and the
structured output links `A`'s thread to both; but the text report of
`parse_all_paths` records no links for `A`'s thread, because its step 6b
looks node-id strings up among the integer thread ids of `path_connections`
and CPython's `str`/`int` equality is always false. -/
theorem C5_junction_links_divergence :
    (final_paths_dict c5Schema).map (fun p => (p.pid, p.path, p.ptype)) =
      [(1, ["A"], "branch_node"), (2, ["B"], "linear_endpoint"),
       (3, ["C"], "linear_endpoint")] ∧
    path_connections_dict c5Schema (ordered_linear_starts_dict c5Schema) 1 =
      [⟨2, "o1"⟩, ⟨3, "o2"⟩] ∧
    (final_paths_text c5Schema).map (fun p => (p.pid, p.path, p.ptype)) =
      [(1, ["A"], "branch_node"), (2, ["B"], "linear_endpoint"),
       (3, ["C"], "linear_endpoint")] ∧
    path_connections_text c5Schema (ordered_linear_starts_text c5Schema) 1 = [] := by
  refine ⟨by decide, rfl, by decide, rfl⟩

theorem junctionTag_mem {s : FlowSchema} {j : String}
    (hj : j ∈ junction_nodes s) : junctionTag s j ∈ junctionTypes := by
  have h := mem_junction_nodes_iff.mp hj
  unfold junctionTag
  by_cases hmc : j ∈ merge_points s
  · by_cases hbc : j ∈ branch_points s
    · simp [hmc, hbc, junctionTypes]
    · simp [hmc, hbc, junctionTypes]
  · have hbc : j ∈ branch_points s := by
      rcases h with hm | hb
      · exact absurd hm hmc
      · exact hb
    simp [hmc, hbc, junctionTypes]

theorem final_types_mem (s : FlowSchema) (st : List String) :
    ∀ p ∈ final_paths_with s st, p.ptype ∈ linearEndTypes ++ junctionTypes := by
  intro p hp
  obtain ⟨x, hx, -, hxt⟩ := mem_final_to_complete hp
  rcases List.mem_append.mp hx with hxi | hxl
  · obtain ⟨pr, hpr, hxe⟩ := List.mem_map.mp hxi
    have hjm : pr.2 ∈ junction_nodes s := by
      have := snd_mem_of_mem_enum hpr
      rwa [processedAfterJunctions_eq] at this
    have hxtag : x.ptype = junctionTag s pr.2 := by rw [← hxe]
    rw [← hxt, hxtag]
    exact List.mem_append_right _ (junctionTag_mem hjm)
  · unfold finished_linear_paths at hxl
    have := (trace_linear_spec s st (processedAfterJunctions s)
      ((processedAfterJunctions s).length + 1)).choose_spec.2.2.2.2 x hxl
    rw [← hxt]
    exact List.mem_append_left _ this.1

/-- C8: the linear-trace loop always terminates — with fuel covering the
unvisited node count it ends in one of the six linear termination types
(cycles are reported as `linear_cycle` by the priority cascade rather than
looping) — and every stored Step Thread carries one of the nine
linear/junction types. -/
theorem C8_cycle_safety (s : FlowSchema) (fuel : Nat) (proc vis path : List String)
    (conn : List ConnInfo) (cur : String) (st : List String) (p : PathInfo)
    (hvm : ∀ x ∈ vis, x ∈ nodeIds s) (hvn : vis.Nodup) (hcv : cur ∉ vis)
    (hcp : cur ∉ proc)
    (hf : ((nodeIds s).filter (fun i => ¬ vis.contains i)).length + 1 ≤ fuel)
    (hp : p ∈ final_paths_with s st) :
    (traceLoop s fuel proc vis path conn cur).end_type ∈ linearEndTypes ∧
    p.ptype ∈ linearEndTypes ++ junctionTypes :=
  ⟨traceLoop_end_mem s fuel proc vis path conn cur hvm hvn hcv hcp hf,
   final_types_mem s st p hp⟩

/-- C8 witness: the self-returning cycle schema terminates with a
`linear_cycle` thread. -/
theorem C8_cycle_safety_witness :
    (traceLoop c8Schema (traceFuel c8Schema) [] [] [] [] "A").end_type ∈
      linearEndTypes ∧
    (⟨["A", "B"], [⟨"A", "B", "o", "i"⟩], "linear_cycle", 1, 1, none, none⟩ :
      PathInfo).ptype ∈ linearEndTypes ++ junctionTypes :=
  C8_cycle_safety c8Schema (traceFuel c8Schema) [] [] [] [] "A"
    (ordered_linear_starts_dict c8Schema)
    ⟨["A", "B"], [⟨"A", "B", "o", "i"⟩], "linear_cycle", 1, 1, none, none⟩
    (by intro x hx; cases hx) List.nodup_nil (by decide) (by decide)
    (by decide) (by decide)

theorem foldl_append_filter_map2 {α β : Type} (p q : α → Bool) (f : α → β) :
    ∀ (l : List α) (acc : List β),
      l.foldl (fun acc x =>
        if p x then (if q x then acc else acc ++ [f x]) else acc) acc =
        acc ++ (l.filter (fun x => p x && !q x)).map f := by
  intro l
  induction l with
  | nil => intro acc; simp
  | cons a rest ih =>
    intro acc
    by_cases hp : p a = true
    · by_cases hq : q a = true
      · simp [hp, hq, ih, List.filter_cons]
      · simp [hp, hq, ih, List.filter_cons]
    · simp [hp, ih, List.filter_cons]

theorem map_filter_comm2 {α β : Type} (f : α → β) (p : β → Bool) :
    ∀ l : List α, (l.map f).filter p = (l.filter (fun x => p (f x))).map f := by
  intro l
  induction l with
  | nil => simp
  | cons a rest ih =>
    rw [List.map_cons, List.filter_cons, List.filter_cons]
    by_cases h : p (f a) = true
    · rw [if_pos h, if_pos h, List.map_cons, ih]
    · rw [if_neg (by simpa using h), if_neg (by simpa using h), ih]

theorem get_input_details_eq (s : FlowSchema) (st : List String) (nid : String)
    (tid : Nat) :
    get_input_details s st nid tid =
      ((incoming_connections s nid).filter (fun conn =>
        conn.from_node ≠ "" && conn.to_interface ≠ "" && conn.from_interface ≠ "" &&
          ¬ (section_nodes s).contains conn.from_node)).map (mkInputDetail s st tid) := by
  unfold get_input_details
  exact foldl_append_filter_map
    (fun conn =>
      conn.from_node ≠ "" && conn.to_interface ≠ "" && conn.from_interface ≠ "" &&
        ¬ (section_nodes s).contains conn.from_node)
    (mkInputDetail s st tid)
    (incoming_connections s nid) []

theorem format_input_details_eq (s : FlowSchema) (st : List String) (nid : String)
    (tid : Nat) :
    format_input_details s st nid tid =
      ((incoming_connections s nid).filter (fun conn =>
        (conn.from_node ≠ "" && conn.to_interface ≠ "" && conn.from_interface ≠ "") &&
          !(section_nodes s).contains conn.from_node)).map (mkInputLine s st tid) := by
  unfold format_input_details
  exact foldl_append_filter_map2
    (fun conn =>
      conn.from_node ≠ "" && conn.to_interface ≠ "" && conn.from_interface ≠ "")
    (fun conn => (section_nodes s).contains conn.from_node)
    (mkInputLine s st tid)
    (incoming_connections s nid) []

theorem bool_eq_of_iff {a b : Bool} (h : a = true ↔ b = true) : a = b := by
  cases a <;> cases b <;> simp_all

theorem filter_map_filter {α β : Type} (p : α → Bool) (f : α → β) (q : β → Bool)
    (r : α → Bool) (h : ∀ a, (p a && q (f a)) = r a) :
    ∀ l : List α, ((l.filter p).map f).filter q = (l.filter r).map f := by
  intro l
  induction l with
  | nil => simp
  | cons a rest ih =>
    by_cases hp : p a = true
    · by_cases hq : q (f a) = true
      · have hr : r a = true := by rw [← h a, hp, hq]; rfl
        simp [hp, hq, hr, ih, List.filter_cons]
      · have hq2 : q (f a) = false := by revert hq; cases q (f a) <;> simp
        have hr : r a = false := by rw [← h a, hp, hq2]; rfl
        simp [hp, hq2, hr, ih, List.filter_cons]
    · have hp2 : p a = false := by revert hp; cases p a <;> simp
      have hr : r a = false := by rw [← h a, hp2]; rfl
      simp [hp2, hr, ih, List.filter_cons]

/-- C10: for every node present in the node dictionary, the step inputs
listed by both renderings (`get_input_details` for the structured output,
`format_input_details` for the text output) enumerate exactly the raw
connections into that node whose source id, source interface and destination
interface are all non-empty and whose source node is not a Section node, in
connection-list order. -/
theorem C10_step_inputs (s : FlowSchema) (st : List String) (nid : String)
    (tid : Nat) (hn : nid ∈ nodeIds s) :
    (get_input_details s st nid tid).map
        (fun d => (d.from_node_id, d.from_interface, d.to_interface)) =
      (s.connections.filter (c10Pred s nid)).map
        (fun c => (c.outputNode, c.outputNodeInterface, c.inputNodeInterface)) ∧
    format_input_details s st nid tid =
      (s.connections.filter (c10Pred s nid)).map (inputDetailString s st tid) := by
  have hne : nid ≠ "" := nodeIds_ne_empty s nid hn
  have hc : (nodeIds s).contains nid = true := containsStr_iff.mpr hn
  have hinc : incoming_connections s nid =
      (s.connections.filter (fun c =>
        c.inputNode ≠ "" && c.outputNode ≠ "" && c.inputNodeInterface ≠ "" &&
          c.inputNode = nid)).map
        (fun c => (⟨c.outputNode, c.inputNodeInterface, c.outputNodeInterface,
          c.id⟩ : InEdge)) := by
    unfold incoming_connections
    rw [if_pos hc]
  have hpt1 : ∀ c : Connection,
      ((c.inputNode ≠ "" && c.outputNode ≠ "" && c.inputNodeInterface ≠ "" &&
          c.inputNode = nid) &&
        ((fun conn : InEdge =>
          conn.from_node ≠ "" && conn.to_interface ≠ "" && conn.from_interface ≠ "" &&
            ¬ (section_nodes s).contains conn.from_node)
         (⟨c.outputNode, c.inputNodeInterface, c.outputNodeInterface, c.id⟩ : InEdge)))
        = c10Pred s nid c := by
    intro c
    apply bool_eq_of_iff
    simp only [c10Pred, Bool.and_assoc, Bool.and_eq_true, decide_eq_true_eq, ne_eq,
      Bool.not_eq_true]
    constructor
    · rintro ⟨hA, hB, hC, hD, hE, hF, hG, hH⟩
      exact ⟨hD, hB, hC, hG, hH⟩
    · rintro ⟨hD, hB, hC, hG, hH⟩
      exact ⟨fun he => hne (hD.symm.trans he), hB, hC, hD, hB, hC, hG, hH⟩
  have hpt2 : ∀ c : Connection,
      ((c.inputNode ≠ "" && c.outputNode ≠ "" && c.inputNodeInterface ≠ "" &&
          c.inputNode = nid) &&
        ((fun conn : InEdge =>
          (conn.from_node ≠ "" && conn.to_interface ≠ "" && conn.from_interface ≠ "") &&
            !(section_nodes s).contains conn.from_node)
         (⟨c.outputNode, c.inputNodeInterface, c.outputNodeInterface, c.id⟩ : InEdge)))
        = c10Pred s nid c := by
    intro c
    apply bool_eq_of_iff
    simp only [c10Pred, Bool.and_assoc, Bool.and_eq_true, decide_eq_true_eq, ne_eq,
      Bool.not_eq_true, Bool.not_eq_true']
    constructor
    · rintro ⟨hA, hB, hC, hD, hE, hF, hG, hH⟩
      exact ⟨hD, hB, hC, hG, hH⟩
    · rintro ⟨hD, hB, hC, hG, hH⟩
      exact ⟨fun he => hne (hD.symm.trans he), hB, hC, hD, hB, hC, hG, hH⟩
  constructor
  · rw [get_input_details_eq, hinc,
      filter_map_filter
        (fun c =>
          c.inputNode ≠ "" && c.outputNode ≠ "" && c.inputNodeInterface ≠ "" &&
            c.inputNode = nid)
        (fun c => (⟨c.outputNode, c.inputNodeInterface, c.outputNodeInterface,
          c.id⟩ : InEdge))
        (fun conn =>
          conn.from_node ≠ "" && conn.to_interface ≠ "" && conn.from_interface ≠ "" &&
            ¬ (section_nodes s).contains conn.from_node)
        (c10Pred s nid) hpt1 s.connections,
      List.map_map, List.map_map]
    rfl
  · rw [format_input_details_eq, hinc,
      filter_map_filter
        (fun c =>
          c.inputNode ≠ "" && c.outputNode ≠ "" && c.inputNodeInterface ≠ "" &&
            c.inputNode = nid)
        (fun c => (⟨c.outputNode, c.inputNodeInterface, c.outputNodeInterface,
          c.id⟩ : InEdge))
        (fun conn =>
          (conn.from_node ≠ "" && conn.to_interface ≠ "" && conn.from_interface ≠ "") &&
            !(section_nodes s).contains conn.from_node)
        (c10Pred s nid) hpt2 s.connections,
      List.map_map]
    rfl

/-- Witness for C10: at `c10Schema` node `T`, the characterization applies
and the surviving connection set is exactly the single edge from `U` (the
Section-sourced edge and the empty-interface edge are dropped). -/
theorem C10_step_inputs_witness :
    "T" ∈ nodeIds c10Schema ∧
    (c10Schema.connections.filter (c10Pred c10Schema "T")).length = 1 ∧
    ((get_input_details c10Schema ["U"] "T" 2).map
        (fun d => (d.from_node_id, d.from_interface, d.to_interface)) =
      (c10Schema.connections.filter (c10Pred c10Schema "T")).map
        (fun c => (c.outputNode, c.outputNodeInterface, c.inputNodeInterface)) ∧
    format_input_details c10Schema ["U"] "T" 2 =
      (c10Schema.connections.filter (c10Pred c10Schema "T")).map
        (inputDetailString c10Schema ["U"] 2)) :=
  ⟨by decide, by decide, C10_step_inputs c10Schema ["U"] "T" 2 (by decide)⟩

theorem c7Path_path : c7Path.path = ["D", "E"] := rfl

theorem c7Path_tempid : c7Path.temp_id = 1 := rfl

theorem c7Path_ptype : c7Path.ptype = "linear_endpoint" := rfl

theorem c7_nodes (sx sy dx dy ex ey : Int) :
    (c7Family (some sx) (some sy) (some dx) (some dy) (some ex) (some ey)).nodes =
      [⟨"S", "S-label", "S-name", "Section", ⟨some sx, some sy⟩,
        "the section story"⟩,
       ⟨"D", "D-label", "D-name", "basic", ⟨some dx, some dy⟩, "do d"⟩,
       ⟨"E", "E-label", "E-name", "basic", ⟨some ex, some ey⟩, "do e"⟩] := rfl

theorem c7_conns (sx sy dx dy ex ey : Int) :
    (c7Family (some sx) (some sy) (some dx) (some dy) (some ex)
      (some ey)).connections =
      [⟨"c1", "S", "o", "D", "i"⟩, ⟨"c2", "D", "o", "E", "i"⟩] := rfl

theorem c7_secnodes (sx sy dx dy ex ey : Int) :
    section_nodes (c7Family (some sx) (some sy) (some dx) (some dy) (some ex)
      (some ey)) = ["S"] := by
  simp [section_nodes, nodes_dict, pyDictInsertNode, c7_nodes]

theorem c7_junction (sx sy dx dy ex ey : Int) :
    junction_nodes (c7Family (some sx) (some sy) (some dx) (some dy) (some ex)
      (some ey)) = [] := by
  simp [junction_nodes, merge_points, branch_points, nodes_dict, pyDictInsertNode,
    c7_nodes, c7_conns, outgoing_connections, incoming_connections, nodeIds]

theorem c7_finished_eval (sx sy dx dy ex ey : Int) :
    finished_linear_paths (c7Family (some sx) (some sy) (some dx) (some dy)
      (some ex) (some ey)) ["D"] = [c7Path] := by
  simp [finished_linear_paths, trace_linear, traceLoop, traceFuel,
    processedAfterJunctions, c7_junction, c7_secnodes, outgoing_connections,
    nodeIds, nodes_dict, pyDictInsertNode, c7_nodes, c7_conns,
    pyStartsWith, c7Path]

theorem c7_final_eval (sx sy dx dy ex ey : Int) :
    final_paths_with (c7Family (some sx) (some sy) (some dx) (some dy) (some ex)
      (some ey)) ["D"] = [c7Path] := by
  have hj : initial_junction_paths (c7Family (some sx) (some sy) (some dx)
      (some dy) (some ex) (some ey)) = [] := by
    simp [initial_junction_paths, processedAfterJunctions, c7_junction]
  unfold final_paths_with sorted_complete_paths_with complete_paths_with
  rw [hj, c7_finished_eval, List.nil_append]
  rfl

theorem c7_starts_eval (sx sy dx dy ex ey : Int) :
    ordered_linear_starts_dict (c7Family (some sx) (some sy) (some dx) (some dy)
      (some ex) (some ey)) = ["D"] := by
  simp [ordered_linear_starts_dict, linear_starts, root_nodes, insertStr, pySorted,
    insertStable, c7_junction, c7_secnodes, nodes_dict, pyDictInsertNode, nodeIds,
    outgoing_connections, incoming_connections, c7_nodes, c7_conns]

theorem c7_sortkey (sx sy dx dy ex ey : Int) :
    get_sort_key (c7Family (some sx) (some sy) (some dx) (some dy) (some ex)
      (some ey)) c7Path = (XVal.fin dx, XVal.fin dy) := by
  simp [get_sort_key, c7Path, lookupNode, nodes_dict, pyDictInsertNode, c7_nodes]

theorem c7_inputs_D (sx sy dx dy ex ey : Int) :
    get_input_details (c7Family (some sx) (some sy) (some dx) (some dy) (some ex)
      (some ey)) ["D"] "D" 1 = [] := by
  simp [get_input_details, incoming_connections, c7_secnodes, nodeIds, nodes_dict,
    pyDictInsertNode, c7_nodes, c7_conns]

theorem c7_inputs_E (sx sy dx dy ex ey : Int) :
    get_input_details (c7Family (some sx) (some sy) (some dx) (some dy) (some ex)
      (some ey)) ["D"] "E" 1 = [⟨"D-label", "D", "o", "i", []⟩] := by
  simp [get_input_details, incoming_connections, c7_secnodes, nodeIds, nodes_dict,
    pyDictInsertNode, c7_nodes, c7_conns, nodes_in_paths,
    c7_final_eval, c7Path, lookupNode, pySorted, insertStable]

theorem c7_idmap (sx sy dx dy ex ey : Int) :
    final_path_id_map (c7Family (some sx) (some sy) (some dx) (some dy) (some ex)
      (some ey)) ["D"] 1 = some 1 := by
  unfold final_path_id_map
  rw [c7_final_eval]
  rfl

theorem c7_links (sx sy dx dy ex ey : Int) :
    path_connections_dict (c7Family (some sx) (some sy) (some dx) (some dy)
      (some ex) (some ey)) ["D"] 1 = [] := by
  have h6a : links_6a (c7Family (some sx) (some sy) (some dx) (some dy) (some ex)
      (some ey)) ["D"] = [] := by
    unfold links_6a
    rw [c7_finished_eval]
    simp only [List.foldl_cons, List.foldl_nil, c7Path_tempid, c7Path_ptype,
      c7_idmap]
    rfl
  have h6b : links_6b_dict (c7Family (some sx) (some sy) (some dx) (some dy)
      (some ex) (some ey)) ["D"] = [] := by
    unfold links_6b_dict
    rw [c7_final_eval]
    simp only [List.foldl_cons, List.foldl_nil, c7Path_ptype]
    rfl
  unfold path_connections_dict
  rw [h6a, h6b]
  rfl

theorem c7_thread_eval (sx sy dx dy ex ey : Int) :
    thread_dict_of (c7Family (some sx) (some sy) (some dx) (some dy) (some ex)
      (some ey)) ["D"] c7Path = c7Thread := by
  have hfd : formatDescription "do d" = "Do d." := by decide
  have hfe : formatDescription "do e" = "Do e." := by decide
  simp [thread_dict_of, thread_steps, c7Path, c7Thread, c7_inputs_D, c7_inputs_E,
    c7_links, c7_secnodes, stepTemplate, ghostNode, hfd, hfe, lookupNode,
    nodes_dict, pyDictInsertNode, c7_nodes, pySorted, insertStable, List.enum,
    List.enumFrom]

theorem c7_assign_eval (sx sy dx dy ex ey : Int) :
    assign_section (c7Family (some sx) (some sy) (some dx) (some dy) (some ex)
      (some ey)) "D" (XVal.fin dx) = (if sx ≤ dx then some "S" else none) := by
  have hss : sorted_section_ids (c7Family (some sx) (some sy) (some dx) (some dy)
      (some ex) (some ey)) = ["S"] := by
    simp [sorted_section_ids, c7_secnodes, pySorted, insertStable]
  have hsp : section_pos (c7Family (some sx) (some sy) (some dx) (some dy)
      (some ex) (some ey)) "S" = (XVal.fin sx, XVal.fin sy) := by
    simp [section_pos, lookupNode, nodes_dict, pyDictInsertNode, c7_nodes]
  unfold assign_section
  rw [hss]
  unfold assign_section_loop
  rw [hsp]
  by_cases h : sx ≤ dx
  · rw [if_pos h]
    have hble : XVal.ble (XVal.fin sx) (XVal.fin dx) = true := by
      simp [XVal.ble, h]
    simp only [hble]
    rfl
  · rw [if_neg h]
    have hble : XVal.ble (XVal.fin sx) (XVal.fin dx) = false := by
      simp [XVal.ble, h]
    have hblt : XVal.blt (XVal.fin dx) (XVal.fin sx) = true := by
      simp [XVal.blt, XVal.ble]
      omega
    simp only [hble, hblt]
    rfl

theorem c7_grouped_eval (sx sy dx dy ex ey : Int) :
    grouped_threads_dict (c7Family (some sx) (some sy) (some dx) (some dy)
      (some ex) (some ey)) ["D"] =
      [((if sx ≤ dx then some "S" else none), c7Thread)] := by
  have hsl : section_label (c7Family (some sx) (some sy) (some dx) (some dy)
      (some ex) (some ey)) "S" = some "S-label" := by
    simp [section_label, c7_secnodes, lookupNode, nodes_dict, pyDictInsertNode,
      c7_nodes]
  have hne : ¬ c7Thread.steps = [] := by decide
  by_cases h : sx ≤ dx
  · simp [grouped_threads_dict, c7_final_eval, c7_secnodes, c7_thread_eval,
      c7_sortkey, c7_assign_eval, c7Path_path, hne, hsl, h]
  · simp [grouped_threads_dict, c7_final_eval, c7_secnodes, c7_thread_eval,
      c7_sortkey, c7_assign_eval, c7Path_path, hne, hsl, h]

theorem c7_sect_threads_eval (sx sy dx dy ex ey : Int) :
    section_threads_for_label (c7Family (some sx) (some sy) (some dx) (some dy)
      (some ex) (some ey)) ["D"] "S-label" =
      (if sx ≤ dx then [c7Thread] else []) := by
  have hsl : section_label (c7Family (some sx) (some sy) (some dx) (some dy)
      (some ex) (some ey)) "S" = some "S-label" := by
    simp [section_label, c7_secnodes, lookupNode, nodes_dict, pyDictInsertNode,
      c7_nodes]
  by_cases h : sx ≤ dx
  · simp [section_threads_for_label, c7_grouped_eval, hsl, h]
  · simp [section_threads_for_label, c7_grouped_eval, hsl, h]

theorem c7_standalone_eval (sx sy dx dy ex ey : Int) :
    standalone_threads_dict (c7Family (some sx) (some sy) (some dx) (some dy)
      (some ex) (some ey)) ["D"] = (if sx ≤ dx then [] else [c7Thread]) := by
  by_cases h : sx ≤ dx
  · simp [standalone_threads_dict, c7_grouped_eval, h]
  · simp [standalone_threads_dict, c7_grouped_eval, h]

theorem c7_secorder (sx sy dx dy ex ey : Int) :
    section_order (c7Family (some sx) (some sy) (some dx) (some dy) (some ex)
      (some ey)) = ["S-label"] := by
  simp [section_order, sorted_section_ids, c7_secnodes, pySorted, insertStable,
    section_label, lookupNode, nodes_dict, pyDictInsertNode, c7_nodes]

theorem c7_output_sections_eval (sx sy dx dy ex ey : Int) :
    output_sections (c7Family (some sx) (some sy) (some dx) (some dy) (some ex)
      (some ey)) ["D"] =
      (if sx ≤ dx then [⟨"S-label", some "the section story", [c7Thread]⟩]
       else []) := by
  have hstrip : pyStrip "the section story" = "the section story" := by decide
  by_cases h : sx ≤ dx
  · simp [output_sections, c7_secorder, c7_sect_threads_eval, h, section_label,
      lookupNode, nodes_dict, pyDictInsertNode, c7_nodes, c7_secnodes, hstrip]
  · simp [output_sections, c7_secorder, c7_sect_threads_eval, h, section_label,
      lookupNode, nodes_dict, pyDictInsertNode, c7_nodes, c7_secnodes, hstrip]

theorem c7_summary_eval (sx sy dx dy ex ey : Int) :
    summary_sections_found (c7Family (some sx) (some sy) (some dx) (some dy)
      (some ex) (some ey)) ["D"] =
      (if sx ≤ dx then [⟨"S-label", "S", some "the section story", 1⟩]
       else [⟨"S-label", "S", some "the section story", 0⟩]) := by
  have hstrip : pyStrip "the section story" = "the section story" := by decide
  by_cases h : sx ≤ dx
  · simp [summary_sections_found, c7_secnodes, lookupNode, nodes_dict,
      pyDictInsertNode, c7_nodes, section_pos, c7_sect_threads_eval, h,
      pySorted, insertStable, hstrip]
  · simp [summary_sections_found, c7_secnodes, lookupNode, nodes_dict,
      pyDictInsertNode, c7_nodes, section_pos, c7_sect_threads_eval, h,
      pySorted, insertStable, hstrip]

/-- C7: the claim as stated is false: in the Scenario C family the grouping
of the `[D, E]` thread under Section `S` does depend on the layout
positions; with `S` at x = 100 and `D` at x = 0 the thread is emitted as a
standalone thread and no section entry is produced. -/
theorem C7_counterexample : ¬ C7claim := by
  intro h
  exact absurd (h 100 0 0 0 50 0) (by decide)

/-- C7 (amended): for the Scenario C family (Section `S` feeding `D` feeding
`E`, all positions parsable), `S` never enters any thread, `D` and `E`
always form the single Step Thread, and that thread is grouped under `S` in
the structured output exactly when `S`'s x-coordinate is not to the right of
`D`'s (`sx ≤ dx`); otherwise it is emitted standalone and the section
summary reports zero threads. -/
theorem C7_section_grouping (sx sy dx dy ex ey : Int) :
    parse_all_paths_dict
      (c7Family (some sx) (some sy) (some dx) (some dy) (some ex) (some ey)) =
      (if sx ≤ dx then
        .ok ⟨[⟨"S-label", some "the section story", [c7Thread]⟩], [], 1,
          [⟨"S-label", "S", some "the section story", 1⟩]⟩
      else
        .ok ⟨[], [c7Thread], 1,
          [⟨"S-label", "S", some "the section story", 0⟩]⟩) := by
  by_cases h : sx ≤ dx
  · simp [parse_all_paths_dict, c7_nodes, c7_starts_eval, c7_final_eval,
      c7_output_sections_eval, c7_standalone_eval, c7_summary_eval,
      c7Path_path, c7_secnodes, h]
  · simp [parse_all_paths_dict, c7_nodes, c7_starts_eval, c7_final_eval,
      c7_output_sections_eval, c7_standalone_eval, c7_summary_eval,
      c7Path_path, c7_secnodes, h]
